import Mathlib

/-!
Shallow embedding of the `python_data_prep` NPL-report pipeline
(`src/4/run_report.py` and `src/4/run_report_prefect.py`).

A pandas dataframe is modelled as a list of column names together with
positional rows of cells; a cell (`Val`) is a missing value (NaN/NaT),
a number (pandas numerics modelled as exact rationals), a string, a
date (a day number relative to the 1970-01-01 epoch, the midnight
`Timestamp` of pandas), or a boolean.  Elementwise pandas operations
(`pd.to_datetime`, `pd.to_numeric`, `pd.cut`, `Series.map(...).fillna`,
comparisons, `np.where`) become functions on `Val`; `pd.merge`,
`drop_duplicates`, `rename`, `drop` and column assignment become
functions on dataframes.  Operations that raise `KeyError` in pandas
(indexing or merging on an absent column) are modelled in `Except`.
-/

/-- A pandas cell value: missing (NaN/NaT), numeric, string, datetime
(day number since 1970-01-01) or boolean. -/
inductive Val where
  | null : Val
  | num : Rat → Val
  | str : String → Val
  | date : Int → Val
  | boolV : Bool → Val
deriving DecidableEq, Repr

/-- Decimal digits of a character list, `none` if some char is not a digit. -/
def digitsVal : List Char → Option Nat
  | [] => some 0
  | c :: cs =>
    if c.isDigit then
      (digitsVal cs).map (fun n => (c.toNat - 48) * 10 ^ cs.length + n)
    else none

/-- Unsigned decimal literal (digits, optional fractional digits). -/
def parseRatBody? (body : List Char) : Option Rat :=
  match body.splitOn '.' with
  | [ip] =>
    if ip = [] then none else (digitsVal ip).map (fun n => (n : Rat))
  | [ip, fp] =>
    if ip = [] ∧ fp = [] then none else
      match digitsVal ip, digitsVal fp with
      | some i, some f => some ((i : Rat) + (f : Rat) / ((10 : Rat) ^ fp.length))
      | _, _ => none
  | _ => none

/-- Parse a decimal literal (optional leading minus, digits, optional
fractional digits) to a rational, as accepted by `pd.to_numeric`. -/
def parseRat? (s : String) : Option Rat :=
  match s.toList with
  | [] => none
  | '-' :: rest => (parseRatBody? rest).map (fun q => -q)
  | cs => parseRatBody? cs

/-- Models `pd.to_numeric(errors="coerce")` on one cell: numerics pass through,
numeric-looking text is parsed, anything else becomes NaN (`null`).
Python booleans are the integers 0 and 1. -/
def toNumericCell : Val → Val
  | Val.num q => Val.num q
  | Val.str s => match parseRat? s with
    | some q => Val.num q
    | none => Val.null
  | Val.boolV b => Val.num (if b then 1 else 0)
  | _ => Val.null

/-- Whether an (integer) year is a Gregorian leap year. -/
def isLeap (y : Int) : Bool := (y % 4 = 0 ∧ y % 100 ≠ 0) ∨ y % 400 = 0

/-- Number of days in a month of a given year. -/
def daysInMonth (y m : Int) : Int :=
  if m = 2 then (if isLeap y then 29 else 28)
  else if m = 4 ∨ m = 6 ∨ m = 9 ∨ m = 11 then 30
  else 31

/-- Day number of a civil date relative to 1970-01-01 (floor-division
form of the standard Gregorian days-from-civil algorithm). -/
def daysFromCivil (y m d : Int) : Int :=
  let y1 := y - (if m ≤ 2 then 1 else 0)
  let era := Int.fdiv y1 400
  let yoe := y1 - era * 400
  let mp := if 2 < m then m - 3 else m + 9
  let doy := Int.fdiv (153 * mp + 2) 5 + d - 1
  let doe := yoe * 365 + Int.fdiv yoe 4 - Int.fdiv yoe 100 + doy
  era * 146097 + doe - 719468

/-- Inverse of `daysFromCivil`: (year, month, day) of a day number. -/
def civilFromDays (n : Int) : Int × Int × Int :=
  let z := n + 719468
  let era := Int.fdiv z 146097
  let doe := z - era * 146097
  let yoe := Int.fdiv (doe - Int.fdiv doe 1460 + Int.fdiv doe 36524 - Int.fdiv doe 146096) 365
  let y := yoe + era * 400
  let doy := doe - (365 * yoe + Int.fdiv yoe 4 - Int.fdiv yoe 100)
  let mp := Int.fdiv (5 * doy + 2) 153
  let d := doy - Int.fdiv (153 * mp + 2) 5 + 1
  let m := if mp < 10 then mp + 3 else mp - 9
  (if m ≤ 2 then y + 1 else y, m, d)

/-- Parse 8-digit `YYYYMMDD` text to a day number, validating the
calendar date and the pandas `Timestamp` range (the int64-nanosecond
range allows midnight timestamps for day numbers in
[-106751, 106751]); `none` models `NaT` under `errors="coerce"`. -/
def parseYmd? (s : String) : Option Int :=
  let cs := s.toList
  if cs.length = 8 then
    match digitsVal (cs.take 4), digitsVal (cs.drop 4 |>.take 2), digitsVal (cs.drop 6) with
    | some y, some m, some d =>
      if 1 ≤ m ∧ m ≤ 12 ∧ 1 ≤ (d : Int) ∧ (d : Int) ≤ daysInMonth y m then
        let n := daysFromCivil y m d
        if -106751 ≤ n ∧ n ≤ 106751 then some n else none
      else none
    | _, _, _ => none
  else none

/-- Models `pd.to_datetime(x, format="%Y%m%d", errors="coerce")` on one cell:
8-digit text (or a nonnegative integer, as produced by the CSV reader
for digit-only columns) parses to a date; already-parsed datetimes pass
through; everything else coerces to `NaT` (`null`). -/
def parseDateCell : Val → Val
  | Val.str s => match parseYmd? s with
    | some n => Val.date n
    | none => Val.null
  | Val.date n => Val.date n
  | Val.num q =>
    if q.den = 1 ∧ 0 ≤ q.num then
      match parseYmd? (Nat.repr q.num.toNat) with
      | some n => Val.date n
      | none => Val.null
    else Val.null
  | _ => Val.null

/-- Index of the first occurrence of a column name. -/
def colIdx? (cols : List String) (c : String) : Option Nat :=
  match cols with
  | [] => none
  | c' :: cs => if c' = c then some 0 else (colIdx? cs c).map (· + 1)

/-- A dataframe: named columns and positional rows of cells. -/
structure Df where
  cols : List String
  rows : List (List Val)
deriving DecidableEq, Repr

/-- Well-formedness: each row has one cell per column. -/
def Df.WF (df : Df) : Prop := ∀ r ∈ df.rows, r.length = df.cols.length

instance (df : Df) : Decidable df.WF := by unfold Df.WF; exact List.decidableBAll _ _

/-- Cell of a row at a named column (`null` when absent; pipeline code
only reads columns it has checked for or that pandas would have). -/
def Df.getCell (df : Df) (r : List Val) (c : String) : Val :=
  match colIdx? df.cols c with
  | some i => r.getD i Val.null
  | none => Val.null

/-- The per-row effect of assigning column `c` (overwrite when the
column exists, else append it at the end, as pandas does). -/
def Df.setRow (df : Df) (c : String) (f : List Val → Val) (r : List Val) : List Val :=
  match colIdx? df.cols c with
  | some i => r.set i (f r)
  | none => r ++ [f r]

/-- Models `df[c] = f(row)`: elementwise column assignment.  The reader `f`
sees the dataframe as it was before the assignment. -/
def Df.setCol (df : Df) (c : String) (f : List Val → Val) : Df :=
  match colIdx? df.cols c with
  | some _ => ⟨df.cols, df.rows.map (df.setRow c f)⟩
  | none => ⟨df.cols ++ [c], df.rows.map (df.setRow c f)⟩

/-- Models `df.rename` of one column (silently a no-op when `a` is absent). -/
def Df.renameCol (df : Df) (a b : String) : Df :=
  ⟨df.cols.map (fun c => if c = a then b else c), df.rows⟩

/-- Models `df.drop` of one column (the pipeline guards the call, so the
absent-column branch is unreachable there). -/
def Df.dropCol (df : Df) (c : String) : Df :=
  match colIdx? df.cols c with
  | some i => ⟨df.cols.eraseIdx i, df.rows.map (·.eraseIdx i)⟩
  | none => df

/-- Helper for `drop_duplicates`: keep the first occurrence of each row. -/
def dedupAux [DecidableEq α] (seen : List α) : List α → List α
  | [] => []
  | r :: rs => if r ∈ seen then dedupAux seen rs else r :: dedupAux (r :: seen) rs

/-- Models `df.drop_duplicates(inplace=True)` over whole rows. -/
def Df.dedupRows (df : Df) : Df := ⟨df.cols, dedupAux [] df.rows⟩

/-- Merge-key comparison: values match by equality, and a missing key
matches a missing key — pandas hash-based join-key equality treats NaN
as equal to NaN (unlike SQL NULL), so null-keyed transaction rows do
join null-CIF performance rows. -/
def keyMatch (a b : Val) : Bool := a = b

/-- Models `pd.merge(t, p, left_on=lk, right_on=rk, how="left")`: every left
row is kept; it is paired with each matching right row, or padded with
nulls when no right row matches.  Columns present on both sides get
the `_x`/`_y` suffixes. -/
def mergeLeft (t p : Df) (lk rk : String) : Df :=
  let cols :=
    t.cols.map (fun c => if c ∈ p.cols then c ++ "_x" else c) ++
    p.cols.map (fun c => if c ∈ t.cols then c ++ "_y" else c)
  let rows := t.rows.flatMap (fun r =>
    let ms := p.rows.filter (fun s => keyMatch (t.getCell r lk) (p.getCell s rk))
    if ms.isEmpty then [r ++ List.replicate p.cols.length Val.null]
    else ms.map (fun s => r ++ s))
  ⟨cols, rows⟩

/-! ## Stage 2: `clean_data` -/

/-- The four date fields of `clean_data`, in source order. -/
def dateCols : List String := ["FRPDATE", "FNPLFDTE", "FORDATE", "FMATDATE"]

/-- One date-field assignment
`df_tran[col] = pd.to_datetime(df_tran[col], format="%Y%m%d", errors="coerce")`. -/
def pdStep (c : String) (d : Df) : Df :=
  d.setCol c (fun r => parseDateCell (d.getCell r c))

/-- Date-parsing block of the plain variant (`run_report.py`, lines
24-27): four unconditional assignments.  Indexing a column that is not
present raises `KeyError` in pandas, modelled by the `Except.error`
branch. -/
def parseDates (t : Df) : Except String Df :=
  if dateCols.all (· ∈ t.cols) then
    Except.ok (pdStep "FMATDATE" (pdStep "FORDATE" (pdStep "FNPLFDTE" (pdStep "FRPDATE" t))))
  else Except.error "KeyError: date column"

/-- Date-parsing block of the Prefect variant
(`run_report_prefect.py`, lines 30-32): each field is parsed only when
present (`if col in df_tran.columns`), so nothing can fail. -/
def parseDatesP (t : Df) : Df :=
  dateCols.foldl (fun d c => if c ∈ d.cols then pdStep c d else d) t

/-- Fill step for one `FDPDUE00` cell:
`pd.to_numeric(x, errors="coerce").fillna(0)`. -/
def fdpdueCell (v : Val) : Val :=
  match toNumericCell v with
  | Val.null => Val.num 0
  | w => w

/-- Shared tail of both `clean_data` variants: the left merge on
`FCUSNO = CIF` (a missing merge key raises `KeyError` in pandas), the
`FRPDATE_x`/`FRPDATE_y` collision fix-up, and the `FDPDUE00`
missing-value policy. -/
def cleanCommon (t2 p : Df) : Except String Df :=
  if "FCUSNO" ∈ t2.cols ∧ "CIF" ∈ p.cols then
    let m0 := mergeLeft t2 p "FCUSNO" "CIF"
    let m1 := if "FRPDATE_x" ∈ m0.cols then m0.renameCol "FRPDATE_x" "FRPDATE" else m0
    let m2 := if "FRPDATE_y" ∈ m1.cols then m1.dropCol "FRPDATE_y" else m1
    let m3 :=
      if "FDPDUE00" ∈ m2.cols then
        m2.setCol "FDPDUE00" (fun r => fdpdueCell (m2.getCell r "FDPDUE00"))
      else m2.setCol "FDPDUE00" (fun _ => Val.num 0)
    Except.ok m3
  else Except.error "KeyError: merge key"

/-- Plain `clean_data` (`run_report.py`, lines 19-46), returning both
the final state of its first argument (which the Python function
mutates in place: dates parsed, duplicates dropped) and the merged
dataset it returns. -/
def cleanDataFull (t p : Df) : Except String (Df × Df) :=
  (parseDates t).bind (fun t1 =>
    let t2 := t1.dedupRows
    (cleanCommon t2 p).map (fun m => (t2, m)))

/-- Merged dataset returned by plain `clean_data`. -/
def cleanData (t p : Df) : Except String Df :=
  (cleanDataFull t p).map (·.2)

/-- Prefect-variant `clean_data` (`run_report_prefect.py`, lines
25-52), with the final state of its mutated first argument. -/
def cleanDataFullP (t p : Df) : Except String (Df × Df) :=
  let t1 := parseDatesP t
  let t2 := t1.dedupRows
  (cleanCommon t2 p).map (fun m => (t2, m))

/-- Merged dataset returned by Prefect-variant `clean_data`. -/
def cleanDataP (t p : Df) : Except String Df :=
  (cleanDataFullP t p).map (·.2)

/-! ## Stage 3: `feature_engineer` -/

/-- Models `df["STAGE_CIF"].map(stage_map).fillna("0. Unknown")` on one
cell, with `stage_map = 1/2/3 ↦ the three named stages`.  Python
booleans hash and compare equal to the integers 0 and 1, so a `True`
cell hits the dictionary key 1; every unmapped value (including NaN)
falls to the `fillna` sentinel. -/
def stageLabelV : Val → Val
  | Val.num q =>
    if q = 1 then Val.str "1. Performing"
    else if q = 2 then Val.str "2. Under-performing"
    else if q = 3 then Val.str "3. NPL"
    else Val.str "0. Unknown"
  | Val.boolV b => if b then Val.str "1. Performing" else Val.str "0. Unknown"
  | _ => Val.str "0. Unknown"

/-- Elementwise numeric comparison `x > k`: NaN compares `False`
(non-numeric cells cannot reach these comparisons in the pipeline,
`FDPDUE00` having been coerced numeric by `clean_data`). -/
def numGtV (v : Val) (k : Rat) : Bool :=
  match v with
  | Val.num q => k < q
  | _ => false

/-- The five `pd.cut` labels, in bin order. -/
def dpdLabels : List String :=
  ["0. No DPD", "1. 1-30 Days", "2. 31-60 Days", "3. 61-90 Days", "4. 90+ Days"]

/-- Models `pd.cut(x, bins=[-1, 0, 30, 60, 90, inf], labels, right=True)`
on one cell: half-open intervals open on the left and closed on the
right; a value outside every bin (x ≤ -1), like NaN, gets no label. -/
def dpdBucketV : Val → Val
  | Val.num x =>
    if x ≤ -1 then Val.null
    else if x ≤ 0 then Val.str "0. No DPD"
    else if x ≤ 30 then Val.str "1. 1-30 Days"
    else if x ≤ 60 then Val.str "2. 31-60 Days"
    else if x ≤ 90 then Val.str "3. 61-90 Days"
    else Val.str "4. 90+ Days"
  | _ => Val.null

/-- Models `np.where(fflg > 0, princ / fflg, np.nan)` on one row, after
both operands were coerced numeric: the ratio is selected exactly when
the facility amount is a number strictly greater than zero (NaN
compares `False`), and NaN propagates through the division.  `np.where`
evaluates the division eagerly on every row, which emits a warning but
never raises, so the function is total. -/
def debtRatioV (princ fflg : Val) : Val :=
  match fflg with
  | Val.num f =>
    if 0 < f then
      match princ with
      | Val.num p => Val.num (p / f)
      | _ => Val.null
    else Val.null
  | _ => Val.null

/-- Models `(a - b).dt.days` on one row: whole-day difference of two
dates; NaT propagates to NaN. -/
def dateDiffDaysV (a b : Val) : Val :=
  match a, b with
  | Val.date x, Val.date y => Val.num ((x - y : Int) : Rat)
  | _, _ => Val.null

/-- Models `.dt.year` on one cell. -/
def dtYearV : Val → Val
  | Val.date n => Val.num ((civilFromDays n).1 : Rat)
  | _ => Val.null

/-- Models `.dt.quarter` on one cell: quarter 1-4 of the month. -/
def dtQuarterV : Val → Val
  | Val.date n => Val.num ((Int.fdiv ((civilFromDays n).2.1 - 1) 3 + 1 : Int) : Rat)
  | _ => Val.null

/-- Columns read by `feature_engineer`; pandas raises `KeyError` when
one is absent from the merged dataset. -/
def feRequired : List String :=
  ["STAGE_CIF", "FDPDUE00", "FFLGBWFW", "FPRINCAM", "FRPDATE", "FORDATE", "FMATDATE"]

/-- Line 54: `df["Stage_Name"] = df["STAGE_CIF"].map(stage_map).fillna(...)`. -/
def feStage (df : Df) : Df :=
  df.setCol "Stage_Name" (fun r => stageLabelV (df.getCell r "STAGE_CIF"))

/-- Line 57: `df["Is_Overdue"] = df["FDPDUE00"] > 0`. -/
def feOverdue (df : Df) : Df :=
  df.setCol "Is_Overdue" (fun r => Val.boolV (numGtV (df.getCell r "FDPDUE00") 0))

/-- Line 62: `df["DPD_Bucket"] = pd.cut(df["FDPDUE00"], bins, labels)`. -/
def feBucket (df : Df) : Df :=
  df.setCol "DPD_Bucket" (fun r => dpdBucketV (df.getCell r "FDPDUE00"))

/-- Line 65: `df["FFLGBWFW"] = pd.to_numeric(df["FFLGBWFW"], errors="coerce")`. -/
def feFflg (df : Df) : Df :=
  df.setCol "FFLGBWFW" (fun r => toNumericCell (df.getCell r "FFLGBWFW"))

/-- Line 66: `df["FPRINCAM"] = pd.to_numeric(df["FPRINCAM"], errors="coerce")`. -/
def fePrinc (df : Df) : Df :=
  df.setCol "FPRINCAM" (fun r => toNumericCell (df.getCell r "FPRINCAM"))

/-- Lines 69-73: the debt-to-limit assignment via `np.where`. -/
def feDebt (df : Df) : Df :=
  df.setCol "Debt_to_Limit_Ratio"
    (fun r => debtRatioV (df.getCell r "FPRINCAM") (df.getCell r "FFLGBWFW"))

/-- Line 76: `df["Loan_Age_Days"] = (df["FRPDATE"] - df["FORDATE"]).dt.days`. -/
def feAge (df : Df) : Df :=
  df.setCol "Loan_Age_Days"
    (fun r => dateDiffDaysV (df.getCell r "FRPDATE") (df.getCell r "FORDATE"))

/-- Line 77: remaining tenor in whole days. -/
def feTenor (df : Df) : Df :=
  df.setCol "Remaining_Tenor_Days"
    (fun r => dateDiffDaysV (df.getCell r "FMATDATE") (df.getCell r "FRPDATE"))

/-- Line 78: `df["Loan_Orig_Year"] = df["FORDATE"].dt.year`. -/
def feYear (df : Df) : Df :=
  df.setCol "Loan_Orig_Year" (fun r => dtYearV (df.getCell r "FORDATE"))

/-- Line 79: `df["Loan_Orig_Quarter"] = df["FORDATE"].dt.quarter`. -/
def feQuarter (df : Df) : Df :=
  df.setCol "Loan_Orig_Quarter" (fun r => dtQuarterV (df.getCell r "FORDATE"))

/-- The ten assignments of `feature_engineer`, in source order. -/
def feChain (df : Df) : Df :=
  feQuarter (feYear (feTenor (feAge (feDebt (fePrinc (feFflg (feBucket (feOverdue (feStage df)))))))))

/-- Plain `feature_engineer` (`run_report.py`, lines 48-81): ten
sequential column assignments on the merged dataset (which the Python
function mutates in place and returns). -/
def featureEngineer (df : Df) : Except String Df :=
  if feRequired.all (· ∈ df.cols) then Except.ok (feChain df)
  else Except.error "KeyError: feature column"

/-- Prefect-variant `feature_engineer` (`run_report_prefect.py`, lines
54-84): the Python body is a verbatim duplicate of the plain one. -/
def featureEngineerP (df : Df) : Except String Df :=
  if feRequired.all (· ∈ df.cols) then
    let d1 := df.setCol "Stage_Name" (fun r => stageLabelV (df.getCell r "STAGE_CIF"))
    let d2 := d1.setCol "Is_Overdue" (fun r => Val.boolV (numGtV (d1.getCell r "FDPDUE00") 0))
    let d3 := d2.setCol "DPD_Bucket" (fun r => dpdBucketV (d2.getCell r "FDPDUE00"))
    let d4 := d3.setCol "FFLGBWFW" (fun r => toNumericCell (d3.getCell r "FFLGBWFW"))
    let d5 := d4.setCol "FPRINCAM" (fun r => toNumericCell (d4.getCell r "FPRINCAM"))
    let d6 := d5.setCol "Debt_to_Limit_Ratio"
      (fun r => debtRatioV (d5.getCell r "FPRINCAM") (d5.getCell r "FFLGBWFW"))
    let d7 := d6.setCol "Loan_Age_Days"
      (fun r => dateDiffDaysV (d6.getCell r "FRPDATE") (d6.getCell r "FORDATE"))
    let d8 := d7.setCol "Remaining_Tenor_Days"
      (fun r => dateDiffDaysV (d7.getCell r "FMATDATE") (d7.getCell r "FRPDATE"))
    let d9 := d8.setCol "Loan_Orig_Year" (fun r => dtYearV (d8.getCell r "FORDATE"))
    let d10 := d9.setCol "Loan_Orig_Quarter" (fun r => dtQuarterV (d9.getCell r "FORDATE"))
    Except.ok d10
  else Except.error "KeyError: feature column"

/-- Lexicographic code-point comparison of character lists (how Python
compares the strings that pandas `groupby(sort=True)` sorts by). -/
def charListLe : List Char → List Char → Bool
  | [], _ => true
  | _ :: _, [] => false
  | a :: as, b :: bs =>
    if a.toNat < b.toNat then true
    else if b.toNat < a.toNat then false
    else charListLe as bs

/-- Python string comparison, as a boolean total preorder. -/
def strLe (a b : String) : Bool := charListLe a.toList b.toList

/-- Python string comparison, as a relation. -/
def strLeR (a b : String) : Prop := strLe a b = true

instance : DecidableRel strLeR := fun a b => by unfold strLeR; infer_instance

/-! ## Stage 4: `create_report` (aggregation and filter only; chart
rendering and file output are external collaborators) -/

/-- Numeric content of a cell, `none` for NaN and non-numeric cells
(pandas aggregations skip these). -/
def toRat? : Val → Option Rat
  | Val.num q => some q
  | _ => none

/-- Principal amounts (non-null numeric `FPRINCAM` cells) of the rows
whose `Stage_Name` equals `k`. -/
def groupVals (df : Df) (k : String) : List Rat :=
  df.rows.filterMap (fun r =>
    if df.getCell r "Stage_Name" = Val.str k then toRat? (df.getCell r "FPRINCAM") else none)

/-- Models `df.groupby("Stage_Name")["FPRINCAM"].agg(["sum", "mean",
"count"])` (`run_report.py`, line 87): one entry per distinct non-null
group key, keys sorted ascending (pandas `groupby` default
`sort=True`); `sum` skips NaN (0 on an empty group), `mean` is NaN on
an empty group, `count` counts non-null values. -/
def reportByStage (df : Df) : List (String × Rat × Option Rat × Nat) :=
  let keys := dedupAux [] (df.rows.filterMap (fun r =>
    match df.getCell r "Stage_Name" with
    | Val.str s => some s
    | _ => none))
  (List.insertionSort strLeR keys).map (fun k =>
    let vs := groupVals df k
    (k, vs.sum, if vs.length = 0 then none else some (vs.sum / vs.length), vs.length))

/-- Models `df_merged[df_merged["FDPDUE00"] > 90]` (`run_report.py`,
line 111): the severe-delinquency filter feeding the 90+ histogram. -/
def dpdOver90 (df : Df) : Df :=
  ⟨df.cols, df.rows.filter (fun r => numGtV (df.getCell r "FDPDUE00") 90)⟩

/-! ## Toolkit: list and column-index lemmas -/

instance [DecidableEq ε] [DecidableEq α] : DecidableEq (Except ε α) := fun a b =>
  match a, b with
  | .ok x, .ok y =>
    if h : x = y then .isTrue (by rw [h]) else .isFalse (by intro hh; cases hh; exact h rfl)
  | .error x, .error y =>
    if h : x = y then .isTrue (by rw [h]) else .isFalse (by intro hh; cases hh; exact h rfl)
  | .ok _, .error _ => .isFalse (by intro hh; cases hh)
  | .error _, .ok _ => .isFalse (by intro hh; cases hh)

theorem getD_set_self {l : List α} {i : Nat} (v d : α) (h : i < l.length) :
    (l.set i v).getD i d = v := by
  simp [List.getD_eq_getElem?_getD, List.getElem?_set_self', List.getElem?_eq_getElem h]

theorem getD_set_ne {l : List α} {i j : Nat} (v d : α) (h : i ≠ j) :
    (l.set i v).getD j d = l.getD j d := by
  simp [List.getD_eq_getElem?_getD, List.getElem?_set_ne h]

theorem getD_append_left {l l2 : List α} {i : Nat} (d : α) (h : i < l.length) :
    (l ++ l2).getD i d = l.getD i d := by
  simp [List.getD_eq_getElem?_getD, List.getElem?_append_left h]

theorem getD_append_singleton {l : List α} (v d : α) :
    (l ++ [v]).getD l.length d = v := by
  simp [List.getD_eq_getElem?_getD]

theorem set_getD_self {l : List α} {i : Nat} (d : α) (h : i < l.length) :
    l.set i (l.getD i d) = l := by
  induction l generalizing i with
  | nil => simp at h
  | cons a l ih =>
    cases i with
    | zero => simp [List.getD]
    | succ n =>
      simp only [List.length_cons, Nat.succ_lt_succ_iff] at h
      simp only [List.getD_cons_succ, List.set_cons_succ]
      exact congrArg _ (ih h)

theorem colIdx?_eq_none {cols : List String} {c : String} :
    colIdx? cols c = none ↔ c ∉ cols := by
  induction cols with
  | nil => simp [colIdx?]
  | cons a l ih =>
    by_cases h : a = c
    · subst h; simp [colIdx?]
    · simp [colIdx?, h, Option.map_eq_none', ih, Ne.symm h]

theorem colIdx?_isSome {cols : List String} {c : String} (h : c ∈ cols) :
    ∃ i, colIdx? cols c = some i := by
  rcases he : colIdx? cols c with _ | i
  · exact absurd (colIdx?_eq_none.mp he) (by simp [h])
  · exact ⟨i, rfl⟩

theorem colIdx?_lt_length {cols : List String} {c : String} {i : Nat}
    (h : colIdx? cols c = some i) : i < cols.length := by
  induction cols generalizing i with
  | nil => simp [colIdx?] at h
  | cons a l ih =>
    by_cases ha : a = c
    · simp only [colIdx?, if_pos ha, Option.some.injEq] at h
      subst h; simp
    · simp only [colIdx?, if_neg ha, Option.map_eq_some'] at h
      rcases h with ⟨j, hj, rfl⟩
      have := ih hj
      simp only [List.length_cons]; omega

theorem colIdx?_getD {cols : List String} {c : String} {i : Nat}
    (h : colIdx? cols c = some i) (d : String) : cols.getD i d = c := by
  induction cols generalizing i with
  | nil => simp [colIdx?] at h
  | cons a l ih =>
    by_cases ha : a = c
    · simp [colIdx?, ha] at h; subst h; simpa [List.getD] using ha
    · simp only [colIdx?, if_neg ha, Option.map_eq_some'] at h
      rcases h with ⟨j, hj, rfl⟩
      simpa [List.getD_cons_succ] using ih hj

theorem colIdx?_inj {cols : List String} {a b : String} {i j : Nat}
    (ha : colIdx? cols a = some i) (hb : colIdx? cols b = some j) (hab : a ≠ b) : i ≠ j := by
  intro he
  exact hab ((colIdx?_getD ha "").symm.trans (by rw [he, colIdx?_getD hb ""]))

theorem colIdx?_append_left {cols l : List String} {c : String} {i : Nat}
    (h : colIdx? cols c = some i) : colIdx? (cols ++ l) c = some i := by
  induction cols generalizing i with
  | nil => simp [colIdx?] at h
  | cons a cs ih =>
    by_cases ha : a = c
    · simp [colIdx?, ha] at h ⊢; omega
    · simp only [colIdx?, if_neg ha, Option.map_eq_some'] at h
      rcases h with ⟨j, hj, rfl⟩
      simp only [List.cons_append, colIdx?, if_neg ha, List.append_eq, ih hj, Option.map_some']

theorem colIdx?_append_self {cols : List String} {c : String} (h : c ∉ cols) :
    colIdx? (cols ++ [c]) c = some cols.length := by
  induction cols with
  | nil => simp [colIdx?]
  | cons a l ih =>
    have ha : a ≠ c := by rintro rfl; exact h (List.mem_cons_self _ _)
    have hl : c ∉ l := fun hc => h (List.mem_cons_of_mem _ hc)
    simp [colIdx?, ha, ih hl]

theorem colIdx?_append_none {cols : List String} {c c' : String}
    (h : c' ∉ cols) (hne : c' ≠ c) : colIdx? (cols ++ [c]) c' = none := by
  rw [colIdx?_eq_none]
  simp [h, hne]

/-! ## Toolkit: column-assignment lemmas -/

theorem setCol_rows (df : Df) (c : String) (f : List Val → Val) :
    (df.setCol c f).rows = df.rows.map (df.setRow c f) := by
  unfold Df.setCol
  rcases h : colIdx? df.cols c with _ | i <;> simp [h]

theorem setCol_cols_of_mem {df : Df} {c : String} (h : c ∈ df.cols) (f : List Val → Val) :
    (df.setCol c f).cols = df.cols := by
  rcases colIdx?_isSome h with ⟨i, hi⟩
  unfold Df.setCol
  simp [hi]

theorem setCol_cols_of_not_mem {df : Df} {c : String} (h : c ∉ df.cols) (f : List Val → Val) :
    (df.setCol c f).cols = df.cols ++ [c] := by
  have hn : colIdx? df.cols c = none := colIdx?_eq_none.mpr h
  unfold Df.setCol
  simp [hn]

theorem mem_setCol_cols {df : Df} {c c' : String} (f : List Val → Val) :
    c' ∈ (df.setCol c f).cols ↔ c' ∈ df.cols ∨ c' = c := by
  by_cases h : c ∈ df.cols
  · rw [setCol_cols_of_mem h]
    constructor
    · exact Or.inl
    · rintro (h' | rfl) <;> assumption
  · rw [setCol_cols_of_not_mem h]
    simp

theorem setCol_wf {df : Df} (c : String) (f : List Val → Val) (h : df.WF) :
    (df.setCol c f).WF := by
  intro r hr
  rw [setCol_rows] at hr
  rcases List.mem_map.mp hr with ⟨r0, hr0, rfl⟩
  unfold Df.setRow
  by_cases hc : c ∈ df.cols
  · rcases colIdx?_isSome hc with ⟨i, hi⟩
    simp [hi, setCol_cols_of_mem hc, h r0 hr0]
  · have hn : colIdx? df.cols c = none := colIdx?_eq_none.mpr hc
    simp [hn, setCol_cols_of_not_mem hc, h r0 hr0]

theorem getCell_setCol_self {df : Df} {c : String} {f : List Val → Val} {r : List Val}
    (hr : r.length = df.cols.length) :
    (df.setCol c f).getCell (df.setRow c f r) c = f r := by
  by_cases hc : c ∈ df.cols
  · rcases colIdx?_isSome hc with ⟨i, hi⟩
    have hlt : i < df.cols.length := colIdx?_lt_length hi
    unfold Df.getCell Df.setRow Df.setCol
    simp only [hi]
    exact getD_set_self _ _ (hr ▸ hlt)
  · have hn : colIdx? df.cols c = none := colIdx?_eq_none.mpr hc
    unfold Df.getCell Df.setRow Df.setCol
    simp only [hn, colIdx?_append_self hc]
    rw [← hr, getD_append_singleton]

theorem getCell_setCol_ne {df : Df} {c c' : String} {f : List Val → Val} {r : List Val}
    (hr : r.length = df.cols.length) (hne : c' ≠ c) :
    (df.setCol c f).getCell (df.setRow c f r) c' = df.getCell r c' := by
  by_cases hc : c ∈ df.cols
  · rcases colIdx?_isSome hc with ⟨i, hi⟩
    unfold Df.getCell Df.setRow Df.setCol
    simp only [hi]
    rcases h' : colIdx? df.cols c' with _ | j
    · rfl
    · exact getD_set_ne _ _ (colIdx?_inj hi h' (Ne.symm hne))
  · have hn : colIdx? df.cols c = none := colIdx?_eq_none.mpr hc
    unfold Df.getCell Df.setRow Df.setCol
    simp only [hn]
    rcases h' : colIdx? df.cols c' with _ | j
    · rw [colIdx?_append_none (colIdx?_eq_none.mp h') hne]
    · rw [colIdx?_append_left h']
      exact getD_append_left _ (hr ▸ colIdx?_lt_length h')

theorem setCol_id {df : Df} {c : String} {f : List Val → Val}
    (hc : c ∈ df.cols) (hwf : df.WF) (hf : ∀ r ∈ df.rows, f r = df.getCell r c) :
    df.setCol c f = df := by
  rcases colIdx?_isSome hc with ⟨i, hi⟩
  have hlt : i < df.cols.length := colIdx?_lt_length hi
  have hrow : ∀ r ∈ df.rows, df.setRow c f r = r := by
    intro r hr
    unfold Df.setRow
    simp only [hi]
    rw [hf r hr]
    unfold Df.getCell
    simp only [hi]
    exact set_getD_self _ ((hwf r hr).symm ▸ hlt)
  have h2 : df.rows.map (df.setRow c f) = df.rows := by
    calc df.rows.map (df.setRow c f) = df.rows.map id := List.map_congr_left hrow
    _ = df.rows := List.map_id _
  unfold Df.setCol
  simp only [hi, h2]

/-! ## Toolkit: tracking cells through `feature_engineer` -/

theorem subset_setCol_cols (df : Df) (c : String) (f : List Val → Val) :
    df.cols ⊆ (df.setCol c f).cols := by
  by_cases h : c ∈ df.cols
  · rw [setCol_cols_of_mem h]
    exact List.Subset.refl _
  · rw [setCol_cols_of_not_mem h]; exact List.subset_append_left _ _

theorem step_elim {d : Df} {c : String} {f : List Val → Val} (hwf : d.WF) :
    ∀ r' ∈ (d.setCol c f).rows, ∃ r ∈ d.rows,
      (∀ c', c' ≠ c → (d.setCol c f).getCell r' c' = d.getCell r c') ∧
      (d.setCol c f).getCell r' c = f r := by
  intro r' hr'
  rw [setCol_rows] at hr'
  obtain ⟨r, hr, rfl⟩ := List.mem_map.mp hr'
  exact ⟨r, hr, fun c' hne => getCell_setCol_ne (hwf r hr) hne, getCell_setCol_self (hwf r hr)⟩

/-- The columns `feature_engineer` adds (or overwrites with coerced
values), in assignment order. -/
def feDerived : List String :=
  ["Stage_Name", "Is_Overdue", "DPD_Bucket", "FFLGBWFW", "FPRINCAM", "Debt_to_Limit_Ratio",
   "Loan_Age_Days", "Remaining_Tenor_Days", "Loan_Orig_Year", "Loan_Orig_Quarter"]

/-- Full characterization of `feature_engineer` on a well-formed merged
dataset whose required columns are present: it succeeds, preserves
well-formedness and the base columns, and each output row carries the
derived cells computed from that row's base cells. -/
theorem featureEngineer_cells (df : Df) (hwf : df.WF)
    (hreq : feRequired.all (· ∈ df.cols) = true) :
    featureEngineer df = Except.ok (feChain df) ∧ (feChain df).WF ∧
    df.cols ⊆ (feChain df).cols ∧ feDerived.all (· ∈ (feChain df).cols) = true ∧
    ∀ r' ∈ (feChain df).rows, ∃ r ∈ df.rows,
      (feChain df).getCell r' "STAGE_CIF" = df.getCell r "STAGE_CIF" ∧
      (feChain df).getCell r' "FDPDUE00" = df.getCell r "FDPDUE00" ∧
      (feChain df).getCell r' "FRPDATE" = df.getCell r "FRPDATE" ∧
      (feChain df).getCell r' "FORDATE" = df.getCell r "FORDATE" ∧
      (feChain df).getCell r' "FMATDATE" = df.getCell r "FMATDATE" ∧
      (feChain df).getCell r' "FFLGBWFW" = toNumericCell (df.getCell r "FFLGBWFW") ∧
      (feChain df).getCell r' "FPRINCAM" = toNumericCell (df.getCell r "FPRINCAM") ∧
      (feChain df).getCell r' "Stage_Name" = stageLabelV (df.getCell r "STAGE_CIF") ∧
      (feChain df).getCell r' "Is_Overdue" = Val.boolV (numGtV (df.getCell r "FDPDUE00") 0) ∧
      (feChain df).getCell r' "DPD_Bucket" = dpdBucketV (df.getCell r "FDPDUE00") ∧
      (feChain df).getCell r' "Debt_to_Limit_Ratio" =
        debtRatioV (toNumericCell (df.getCell r "FPRINCAM"))
          (toNumericCell (df.getCell r "FFLGBWFW")) ∧
      (feChain df).getCell r' "Loan_Age_Days" =
        dateDiffDaysV (df.getCell r "FRPDATE") (df.getCell r "FORDATE") ∧
      (feChain df).getCell r' "Remaining_Tenor_Days" =
        dateDiffDaysV (df.getCell r "FMATDATE") (df.getCell r "FRPDATE") ∧
      (feChain df).getCell r' "Loan_Orig_Year" = dtYearV (df.getCell r "FORDATE") ∧
      (feChain df).getCell r' "Loan_Orig_Quarter" = dtQuarterV (df.getCell r "FORDATE") := by
  set D1 := feStage df with hD1
  set D2 := feOverdue D1 with hD2
  set D3 := feBucket D2 with hD3
  set D4 := feFflg D3 with hD4
  set D5 := fePrinc D4 with hD5
  set D6 := feDebt D5 with hD6
  set D7 := feAge D6 with hD7
  set D8 := feTenor D7 with hD8
  set D9 := feYear D8 with hD9
  set D10 := feQuarter D9 with hD10
  have hchain : feChain df = D10 := rfl
  have wf1 : D1.WF := setCol_wf _ _ hwf
  have wf2 : D2.WF := setCol_wf _ _ wf1
  have wf3 : D3.WF := setCol_wf _ _ wf2
  have wf4 : D4.WF := setCol_wf _ _ wf3
  have wf5 : D5.WF := setCol_wf _ _ wf4
  have wf6 : D6.WF := setCol_wf _ _ wf5
  have wf7 : D7.WF := setCol_wf _ _ wf6
  have wf8 : D8.WF := setCol_wf _ _ wf7
  have wf9 : D9.WF := setCol_wf _ _ wf8
  have wf10 : D10.WF := setCol_wf _ _ wf9
  have s1 : df.cols ⊆ D1.cols := subset_setCol_cols df _ _
  have s2 : D1.cols ⊆ D2.cols := subset_setCol_cols D1 _ _
  have s3 : D2.cols ⊆ D3.cols := subset_setCol_cols D2 _ _
  have s4 : D3.cols ⊆ D4.cols := subset_setCol_cols D3 _ _
  have s5 : D4.cols ⊆ D5.cols := subset_setCol_cols D4 _ _
  have s6 : D5.cols ⊆ D6.cols := subset_setCol_cols D5 _ _
  have s7 : D6.cols ⊆ D7.cols := subset_setCol_cols D6 _ _
  have s8 : D7.cols ⊆ D8.cols := subset_setCol_cols D7 _ _
  have s9 : D8.cols ⊆ D9.cols := subset_setCol_cols D8 _ _
  have s10 : D9.cols ⊆ D10.cols := subset_setCol_cols D9 _ _
  have hsub : df.cols ⊆ D10.cols :=
    s1.trans (s2.trans (s3.trans (s4.trans (s5.trans (s6.trans (s7.trans
      (s8.trans (s9.trans s10))))))))
  have hder : feDerived.all (· ∈ D10.cols) = true := by
    have w1 : "Stage_Name" ∈ D1.cols := (mem_setCol_cols _).mpr (Or.inr rfl)
    have w2 : "Is_Overdue" ∈ D2.cols := (mem_setCol_cols _).mpr (Or.inr rfl)
    have w3 : "DPD_Bucket" ∈ D3.cols := (mem_setCol_cols _).mpr (Or.inr rfl)
    have w4 : "FFLGBWFW" ∈ D4.cols := (mem_setCol_cols _).mpr (Or.inr rfl)
    have w5 : "FPRINCAM" ∈ D5.cols := (mem_setCol_cols _).mpr (Or.inr rfl)
    have w6 : "Debt_to_Limit_Ratio" ∈ D6.cols := (mem_setCol_cols _).mpr (Or.inr rfl)
    have w7 : "Loan_Age_Days" ∈ D7.cols := (mem_setCol_cols _).mpr (Or.inr rfl)
    have w8 : "Remaining_Tenor_Days" ∈ D8.cols := (mem_setCol_cols _).mpr (Or.inr rfl)
    have w9 : "Loan_Orig_Year" ∈ D9.cols := (mem_setCol_cols _).mpr (Or.inr rfl)
    have w10 : "Loan_Orig_Quarter" ∈ D10.cols := (mem_setCol_cols _).mpr (Or.inr rfl)
    simp only [feDerived, List.all_cons, List.all_nil, Bool.and_eq_true, decide_eq_true_eq,
      Bool.and_true]
    refine ⟨?_, ?_, ?_, ?_, ?_, ?_, ?_, ?_, ?_, ?_⟩
    · exact s10 (s9 (s8 (s7 (s6 (s5 (s4 (s3 (s2 w1))))))))
    · exact s10 (s9 (s8 (s7 (s6 (s5 (s4 (s3 w2)))))))
    · exact s10 (s9 (s8 (s7 (s6 (s5 (s4 w3))))))
    · exact s10 (s9 (s8 (s7 (s6 (s5 w4)))))
    · exact s10 (s9 (s8 (s7 (s6 w5))))
    · exact s10 (s9 (s8 (s7 w6)))
    · exact s10 (s9 (s8 w7))
    · exact s10 (s9 w8)
    · exact s10 w9
    · exact w10
  refine ⟨by unfold featureEngineer; rw [if_pos hreq], wf10, hsub, hder, ?_⟩
  intro r' hr'
  rw [hchain]
  obtain ⟨r9, hm9, hpr10, hwr10⟩ := step_elim wf9 r' hr'
  obtain ⟨r8, hm8, hpr9, hwr9⟩ := step_elim wf8 r9 hm9
  obtain ⟨r7, hm7, hpr8, hwr8⟩ := step_elim wf7 r8 hm8
  obtain ⟨r6, hm6, hpr7, hwr7⟩ := step_elim wf6 r7 hm7
  obtain ⟨r5, hm5, hpr6, hwr6⟩ := step_elim wf5 r6 hm6
  obtain ⟨r4, hm4, hpr5, hwr5⟩ := step_elim wf4 r5 hm5
  obtain ⟨r3, hm3, hpr4, hwr4⟩ := step_elim wf3 r4 hm4
  obtain ⟨r2, hm2, hpr3, hwr3⟩ := step_elim wf2 r3 hm3
  obtain ⟨r1, hm1, hpr2, hwr2⟩ := step_elim wf1 r2 hm2
  obtain ⟨r0, hm0, hpr1, hwr1⟩ := step_elim hwf r1 hm1
  have hp10 : ∀ c', c' ≠ "Loan_Orig_Quarter" → D10.getCell r' c' = D9.getCell r9 c' := hpr10
  have hp9 : ∀ c', c' ≠ "Loan_Orig_Year" → D9.getCell r9 c' = D8.getCell r8 c' := hpr9
  have hp8 : ∀ c', c' ≠ "Remaining_Tenor_Days" → D8.getCell r8 c' = D7.getCell r7 c' := hpr8
  have hp7 : ∀ c', c' ≠ "Loan_Age_Days" → D7.getCell r7 c' = D6.getCell r6 c' := hpr7
  have hp6 : ∀ c', c' ≠ "Debt_to_Limit_Ratio" → D6.getCell r6 c' = D5.getCell r5 c' := hpr6
  have hp5 : ∀ c', c' ≠ "FPRINCAM" → D5.getCell r5 c' = D4.getCell r4 c' := hpr5
  have hp4 : ∀ c', c' ≠ "FFLGBWFW" → D4.getCell r4 c' = D3.getCell r3 c' := hpr4
  have hp3 : ∀ c', c' ≠ "DPD_Bucket" → D3.getCell r3 c' = D2.getCell r2 c' := hpr3
  have hp2 : ∀ c', c' ≠ "Is_Overdue" → D2.getCell r2 c' = D1.getCell r1 c' := hpr2
  have hp1 : ∀ c', c' ≠ "Stage_Name" → D1.getCell r1 c' = df.getCell r0 c' := hpr1
  have hw1 : D1.getCell r1 "Stage_Name" = stageLabelV (df.getCell r0 "STAGE_CIF") := hwr1
  have hw2 : D2.getCell r2 "Is_Overdue" = Val.boolV (numGtV (D1.getCell r1 "FDPDUE00") 0) := hwr2
  have hw3 : D3.getCell r3 "DPD_Bucket" = dpdBucketV (D2.getCell r2 "FDPDUE00") := hwr3
  have hw4 : D4.getCell r4 "FFLGBWFW" = toNumericCell (D3.getCell r3 "FFLGBWFW") := hwr4
  have hw5 : D5.getCell r5 "FPRINCAM" = toNumericCell (D4.getCell r4 "FPRINCAM") := hwr5
  have hw6 : D6.getCell r6 "Debt_to_Limit_Ratio" =
      debtRatioV (D5.getCell r5 "FPRINCAM") (D5.getCell r5 "FFLGBWFW") := hwr6
  have hw7 : D7.getCell r7 "Loan_Age_Days" =
      dateDiffDaysV (D6.getCell r6 "FRPDATE") (D6.getCell r6 "FORDATE") := hwr7
  have hw8 : D8.getCell r8 "Remaining_Tenor_Days" =
      dateDiffDaysV (D7.getCell r7 "FMATDATE") (D7.getCell r7 "FRPDATE") := hwr8
  have hw9 : D9.getCell r9 "Loan_Orig_Year" = dtYearV (D8.getCell r8 "FORDATE") := hwr9
  have hw10 : D10.getCell r' "Loan_Orig_Quarter" = dtQuarterV (D9.getCell r9 "FORDATE") := hwr10
  refine ⟨r0, hm0, ?_, ?_, ?_, ?_, ?_, ?_, ?_, ?_, ?_, ?_, ?_, ?_, ?_, ?_, ?_⟩
  · rw [hp10 _ (by decide), hp9 _ (by decide), hp8 _ (by decide), hp7 _ (by decide),
      hp6 _ (by decide), hp5 _ (by decide), hp4 _ (by decide), hp3 _ (by decide),
      hp2 _ (by decide), hp1 _ (by decide)]
  · rw [hp10 _ (by decide), hp9 _ (by decide), hp8 _ (by decide), hp7 _ (by decide),
      hp6 _ (by decide), hp5 _ (by decide), hp4 _ (by decide), hp3 _ (by decide),
      hp2 _ (by decide), hp1 _ (by decide)]
  · rw [hp10 _ (by decide), hp9 _ (by decide), hp8 _ (by decide), hp7 _ (by decide),
      hp6 _ (by decide), hp5 _ (by decide), hp4 _ (by decide), hp3 _ (by decide),
      hp2 _ (by decide), hp1 _ (by decide)]
  · rw [hp10 _ (by decide), hp9 _ (by decide), hp8 _ (by decide), hp7 _ (by decide),
      hp6 _ (by decide), hp5 _ (by decide), hp4 _ (by decide), hp3 _ (by decide),
      hp2 _ (by decide), hp1 _ (by decide)]
  · rw [hp10 _ (by decide), hp9 _ (by decide), hp8 _ (by decide), hp7 _ (by decide),
      hp6 _ (by decide), hp5 _ (by decide), hp4 _ (by decide), hp3 _ (by decide),
      hp2 _ (by decide), hp1 _ (by decide)]
  · rw [hp10 _ (by decide), hp9 _ (by decide), hp8 _ (by decide), hp7 _ (by decide),
      hp6 _ (by decide), hp5 _ (by decide), hw4, hp3 _ (by decide), hp2 _ (by decide),
      hp1 _ (by decide)]
  · rw [hp10 _ (by decide), hp9 _ (by decide), hp8 _ (by decide), hp7 _ (by decide),
      hp6 _ (by decide), hw5, hp4 _ (by decide), hp3 _ (by decide), hp2 _ (by decide),
      hp1 _ (by decide)]
  · rw [hp10 _ (by decide), hp9 _ (by decide), hp8 _ (by decide), hp7 _ (by decide),
      hp6 _ (by decide), hp5 _ (by decide), hp4 _ (by decide), hp3 _ (by decide),
      hp2 _ (by decide), hw1]
  · rw [hp10 _ (by decide), hp9 _ (by decide), hp8 _ (by decide), hp7 _ (by decide),
      hp6 _ (by decide), hp5 _ (by decide), hp4 _ (by decide), hp3 _ (by decide),
      hw2, hp1 _ (by decide)]
  · rw [hp10 _ (by decide), hp9 _ (by decide), hp8 _ (by decide), hp7 _ (by decide),
      hp6 _ (by decide), hp5 _ (by decide), hp4 _ (by decide), hw3, hp2 _ (by decide),
      hp1 _ (by decide)]
  · rw [hp10 _ (by decide), hp9 _ (by decide), hp8 _ (by decide), hp7 _ (by decide),
      hw6, hw5, hp5 _ (by decide), hw4, hp4 _ (by decide), hp3 _ (by decide),
      hp2 _ (by decide), hp1 _ (by decide), hp3 _ (by decide), hp2 _ (by decide),
      hp1 _ (by decide)]
  · rw [hp10 _ (by decide), hp9 _ (by decide), hp8 _ (by decide), hw7,
      hp6 _ (by decide), hp5 _ (by decide), hp4 _ (by decide), hp3 _ (by decide),
      hp2 _ (by decide), hp1 _ (by decide), hp6 _ (by decide), hp5 _ (by decide),
      hp4 _ (by decide), hp3 _ (by decide), hp2 _ (by decide), hp1 _ (by decide)]
  · rw [hp10 _ (by decide), hp9 _ (by decide), hw8, hp7 _ (by decide),
      hp6 _ (by decide), hp5 _ (by decide), hp4 _ (by decide), hp3 _ (by decide),
      hp2 _ (by decide), hp1 _ (by decide), hp7 _ (by decide), hp6 _ (by decide),
      hp5 _ (by decide), hp4 _ (by decide), hp3 _ (by decide), hp2 _ (by decide),
      hp1 _ (by decide)]
  · rw [hp10 _ (by decide), hw9, hp8 _ (by decide), hp7 _ (by decide),
      hp6 _ (by decide), hp5 _ (by decide), hp4 _ (by decide), hp3 _ (by decide),
      hp2 _ (by decide), hp1 _ (by decide)]
  · rw [hw10, hp9 _ (by decide), hp8 _ (by decide), hp7 _ (by decide),
      hp6 _ (by decide), hp5 _ (by decide), hp4 _ (by decide), hp3 _ (by decide),
      hp2 _ (by decide), hp1 _ (by decide)]

/-! ## Toolkit: string order and deduplication lemmas -/

theorem charListLe_total : ∀ xs ys : List Char,
    charListLe xs ys = true ∨ charListLe ys xs = true := by
  intro xs
  induction xs with
  | nil => intro ys; left; rfl
  | cons a as ih =>
    intro ys
    cases ys with
    | nil => right; rfl
    | cons b bs =>
      by_cases h1 : a.toNat < b.toNat
      · left; simp [charListLe, h1]
      · by_cases h2 : b.toNat < a.toNat
        · right; simp [charListLe, h2]
        · rcases ih bs with h | h
          · left; simp [charListLe, h1, h2, h]
          · right; simp [charListLe, h1, h2, h]

theorem charListLe_trans : ∀ xs ys zs : List Char,
    charListLe xs ys = true → charListLe ys zs = true → charListLe xs zs = true := by
  intro xs
  induction xs with
  | nil => intro ys zs _ _; rfl
  | cons a as ih =>
    intro ys zs hxy hyz
    cases ys with
    | nil => simp [charListLe] at hxy
    | cons b bs =>
      cases zs with
      | nil => simp [charListLe] at hyz
      | cons c cs =>
        simp only [charListLe] at hxy hyz ⊢
        split_ifs at hxy hyz ⊢ <;> try omega
        all_goals try rfl
        all_goals try simp_all
        exact ih bs cs hxy hyz

instance : IsTotal String strLeR := ⟨fun _ _ => charListLe_total _ _⟩

instance : IsTrans String strLeR := ⟨fun _ _ _ => charListLe_trans _ _ _⟩

theorem mem_dedupAux [DecidableEq α] {l seen : List α} {x : α} :
    x ∈ dedupAux seen l ↔ x ∈ l ∧ x ∉ seen := by
  induction l generalizing seen with
  | nil => simp [dedupAux]
  | cons r rs ih =>
    by_cases hr : r ∈ seen
    · rw [dedupAux, if_pos hr, ih]
      constructor
      · rintro ⟨h1, h2⟩; exact ⟨List.mem_cons_of_mem _ h1, h2⟩
      · rintro ⟨h1, h2⟩
        rcases List.mem_cons.mp h1 with rfl | h1
        · exact absurd hr h2
        · exact ⟨h1, h2⟩
    · rw [dedupAux, if_neg hr]
      constructor
      · intro h
        rcases List.mem_cons.mp h with rfl | h
        · exact ⟨List.mem_cons_self _ _, hr⟩
        · rcases ih.mp h with ⟨h1, h2⟩
          refine ⟨List.mem_cons_of_mem _ h1, fun hx => h2 ?_⟩
          exact List.mem_cons_of_mem _ hx
      · rintro ⟨h1, h2⟩
        rcases List.mem_cons.mp h1 with rfl | h1
        · exact List.mem_cons_self _ _
        · by_cases hx : x = r
          · subst hx; exact List.mem_cons_self _ _
          · exact List.mem_cons_of_mem _ (ih.mpr ⟨h1, by simp [hx, h2]⟩)

theorem dedupAux_nodup [DecidableEq α] (seen l : List α) : (dedupAux seen l).Nodup := by
  induction l generalizing seen with
  | nil => exact List.nodup_nil
  | cons r rs ih =>
    by_cases hr : r ∈ seen
    · rw [dedupAux, if_pos hr]; exact ih seen
    · rw [dedupAux, if_neg hr]
      refine List.nodup_cons.mpr ⟨fun h => ?_, ih _⟩
      exact (mem_dedupAux.mp h).2 (List.mem_cons_self _ _)

theorem dedupAux_eq_self [DecidableEq α] {l : List α} (h : l.Nodup) :
    ∀ seen : List α, (∀ x ∈ l, x ∉ seen) → dedupAux seen l = l := by
  induction l with
  | nil => intro seen _; rfl
  | cons r rs ih =>
    intro seen hd
    rw [dedupAux, if_neg (hd r (List.mem_cons_self _ _))]
    rcases List.nodup_cons.mp h with ⟨hr, hrs⟩
    refine congrArg _ (ih hrs _ ?_)
    intro x hx
    simp only [List.mem_cons, not_or]
    exact ⟨fun he => hr (he ▸ hx), hd x (List.mem_cons_of_mem _ hx)⟩

theorem dedupRows_idem (df : Df) : df.dedupRows.dedupRows = df.dedupRows := by
  unfold Df.dedupRows
  exact congrArg _ (dedupAux_eq_self (dedupAux_nodup [] df.rows) [] (by simp))

theorem dedupRows_wf {df : Df} (h : df.WF) : df.dedupRows.WF := by
  intro r hr
  exact h r (mem_dedupAux.mp hr).1

/-! ## Claims -/

/-- Empty merged dataset with exactly the columns `feature_engineer`
reads; used to instantiate universally quantified claims. -/
def emptyMerged : Df := ⟨feRequired, []⟩

theorem emptyMerged_wf : emptyMerged.WF := fun r hr => absurd hr (List.not_mem_nil r)

/-- C7: the stage-label mapping of `feature_engineer` is total — code 1
maps to "1. Performing", 2 to "2. Under-performing", 3 to "3. NPL",
every other value (null, any other number, any text) maps to the
"0. Unknown" sentinel, every input yields one of the four labels (the
mapping is a total function, so it cannot raise), and in the output
dataset the stage-name cell is exactly this function of the stage-code
cell. -/
theorem stage_label_total (df : Df) (hwf : df.WF)
    (hreq : feRequired.all (· ∈ df.cols) = true) :
    stageLabelV (Val.num 1) = Val.str "1. Performing" ∧
    stageLabelV (Val.num 2) = Val.str "2. Under-performing" ∧
    stageLabelV (Val.num 3) = Val.str "3. NPL" ∧
    stageLabelV Val.null = Val.str "0. Unknown" ∧
    (∀ q : Rat, q ≠ 1 → q ≠ 2 → q ≠ 3 → stageLabelV (Val.num q) = Val.str "0. Unknown") ∧
    (∀ s : String, stageLabelV (Val.str s) = Val.str "0. Unknown") ∧
    (∀ v : Val, stageLabelV v ∈ [Val.str "0. Unknown", Val.str "1. Performing",
      Val.str "2. Under-performing", Val.str "3. NPL"]) ∧
    ∀ r' ∈ (feChain df).rows,
      (feChain df).getCell r' "Stage_Name" = stageLabelV ((feChain df).getCell r' "STAGE_CIF") := by
  obtain ⟨-, -, -, -, hrows⟩ := featureEngineer_cells df hwf hreq
  refine ⟨by decide, by decide, by decide, rfl, ?_, fun s => rfl, ?_, ?_⟩
  · intro q h1 h2 h3
    simp [stageLabelV, h1, h2, h3]
  · intro v
    cases v with
    | num q =>
      simp only [stageLabelV]
      split_ifs <;> simp
    | boolV b => cases b <;> simp [stageLabelV]
    | null => simp [stageLabelV]
    | str s => simp [stageLabelV]
    | date n => simp [stageLabelV]
  · intro r' hr'
    obtain ⟨r, hm, h1, h2, h3, h4, h5, h6, h7, h8, h9, h10, h11, h12, h13, h14, h15⟩ :=
      hrows r' hr'
    rw [h8, h1]

/-- C7 witness: the theorem applied to the empty merged dataset, read
off at two concrete stage codes. -/
theorem stage_label_total_witness :
    stageLabelV (Val.num 7) = Val.str "0. Unknown" ∧
    stageLabelV (Val.num 2) = Val.str "2. Under-performing" :=
  ⟨(stage_label_total emptyMerged emptyMerged_wf rfl).2.2.2.2.1 7
      (by norm_num) (by norm_num) (by norm_num),
    (stage_label_total emptyMerged emptyMerged_wf rfl).2.1⟩

/-- C2: the debt-to-limit ratio of `feature_engineer` is null when the
coerced facility amount is null or not strictly positive, and is the
exact rational quotient principal ÷ facility when the facility amount
is strictly positive; the defining function is total (`np.where`
selects, never raises); and in the output dataset the ratio cell is
exactly this function of the two coerced cells. -/
theorem debt_ratio_spec (df : Df) (hwf : df.WF)
    (hreq : feRequired.all (· ∈ df.cols) = true) :
    (∀ p : Val, debtRatioV p Val.null = Val.null) ∧
    (∀ (p : Val) (f : Rat), f ≤ 0 → debtRatioV p (Val.num f) = Val.null) ∧
    (∀ p f : Rat, 0 < f → debtRatioV (Val.num p) (Val.num f) = Val.num (p / f)) ∧
    ∀ r' ∈ (feChain df).rows,
      (feChain df).getCell r' "Debt_to_Limit_Ratio" =
        debtRatioV ((feChain df).getCell r' "FPRINCAM")
          ((feChain df).getCell r' "FFLGBWFW") := by
  obtain ⟨-, -, -, -, hrows⟩ := featureEngineer_cells df hwf hreq
  refine ⟨fun p => rfl, ?_, ?_, ?_⟩
  · intro p f hf
    simp [debtRatioV, not_lt.mpr hf]
  · intro p f hf
    simp [debtRatioV, hf]
  · intro r' hr'
    obtain ⟨r, hm, h1, h2, h3, h4, h5, h6, h7, h8, h9, h10, h11, h12, h13, h14, h15⟩ :=
      hrows r' hr'
    rw [h11, h6, h7]

/-- C2 witness: concrete facility amounts 4 (positive) and 0. -/
theorem debt_ratio_spec_witness :
    debtRatioV (Val.num 100) (Val.num 4) = Val.num 25 ∧
    debtRatioV (Val.num 100) (Val.num 0) = Val.null :=
  ⟨((debt_ratio_spec emptyMerged emptyMerged_wf rfl).2.2.1 100 4 (by norm_num)).trans
      (by norm_num),
    (debt_ratio_spec emptyMerged emptyMerged_wf rfl).2.1 (Val.num 100) 0 le_rfl⟩

/-- The list of cell values a feature-engineered column takes, for
stating concrete counterexamples. -/
def feCol (df : Df) (c : String) : List Val :=
  match featureEngineer df with
  | Except.ok o => o.rows.map (fun r => o.getCell r c)
  | Except.error _ => []

/-- C1 counterexample: a merged row whose days-past-due value is -2
(below -1, which the claim says is "not rejected" and still mapped to
one of the five labels) gets NO bucket label: `pd.cut` leaves values
outside every bin unlabelled (NaN), so the bucket cell is null, which
is none of the five labels. -/
theorem dpd_bucket_not_total_counterexample :
    feCol ⟨feRequired, [[Val.null, Val.num (-2), Val.null, Val.null, Val.null, Val.null,
      Val.null]]⟩ "DPD_Bucket" = [Val.null] ∧
    Val.null ∉ dpdLabels.map Val.str := by decide

/-- C1 (amended): the five half-open ranges with the fixed labels
partition the days-past-due values strictly greater than -1 (not all
non-null numeric values: a value ≤ -1 falls outside every `pd.cut` bin
and gets a null bucket); the boundary value 0 falls in "0. No DPD";
label order matches numeric order; and in the output dataset the
bucket cell is exactly this function of the days-past-due cell. -/
theorem dpd_bucket_partition (df : Df) (hwf : df.WF)
    (hreq : feRequired.all (· ∈ df.cols) = true) :
    (∀ x : Rat, -1 < x → ∃ l, dpdBucketV (Val.num x) = Val.str l ∧ l ∈ dpdLabels) ∧
    (∀ (x : Rat) (l1 l2 : String), dpdBucketV (Val.num x) = Val.str l1 →
      dpdBucketV (Val.num x) = Val.str l2 → l1 = l2) ∧
    dpdBucketV (Val.num 0) = Val.str "0. No DPD" ∧
    (∀ (x y : Rat) (lx ly : String), dpdBucketV (Val.num x) = Val.str lx →
      dpdBucketV (Val.num y) = Val.str ly → x ≤ y → strLe lx ly = true) ∧
    ∀ r' ∈ (feChain df).rows,
      (feChain df).getCell r' "DPD_Bucket" =
        dpdBucketV ((feChain df).getCell r' "FDPDUE00") := by
  obtain ⟨-, -, -, -, hrows⟩ := featureEngineer_cells df hwf hreq
  refine ⟨?_, ?_, by decide, ?_, ?_⟩
  · intro x hx
    simp only [dpdBucketV]
    split_ifs with h1 h2 h3 h4 h5
    · exact absurd hx (by linarith)
    · exact ⟨"0. No DPD", rfl, by simp [dpdLabels]⟩
    · exact ⟨"1. 1-30 Days", rfl, by simp [dpdLabels]⟩
    · exact ⟨"2. 31-60 Days", rfl, by simp [dpdLabels]⟩
    · exact ⟨"3. 61-90 Days", rfl, by simp [dpdLabels]⟩
    · exact ⟨"4. 90+ Days", rfl, by simp [dpdLabels]⟩
  · intro x l1 l2 h1 h2
    rw [h1] at h2
    injection h2
  · intro x y lx ly hx hy hxy
    simp only [dpdBucketV] at hx hy
    split_ifs at hx hy <;>
      first
        | (exact Val.noConfusion hx)
        | (exact Val.noConfusion hy)
        | (exfalso; linarith)
        | (injection hx with hx1; injection hy with hy1; subst hx1; subst hy1; decide)
  · intro r' hr'
    obtain ⟨r, hm, h1, h2, h3, h4, h5, h6, h7, h8, h9, h10, h11, h12, h13, h14, h15⟩ :=
      hrows r' hr'
    rw [h10, h2]

/-- C1 witness: the amended theorem applied to the empty merged
dataset, read off at days-past-due 0 and at the ordered pair 5 ≤ 95. -/
theorem dpd_bucket_partition_witness :
    dpdBucketV (Val.num 0) = Val.str "0. No DPD" ∧
    strLe "1. 1-30 Days" "4. 90+ Days" = true :=
  ⟨(dpd_bucket_partition emptyMerged emptyMerged_wf rfl).2.2.1,
    (dpd_bucket_partition emptyMerged emptyMerged_wf rfl).2.2.2.1 5 95 _ _
      (by decide) (by decide) (by norm_num)⟩

/-- Cell-level agreement of the Reporter's 90+ filter with the bucket
boundary: a cell passes `> 90` exactly when its bucket is the fifth
label (NaN and out-of-bin cells pass neither). -/
theorem numGt90_iff_bucket (v : Val) :
    numGtV v 90 = true ↔ dpdBucketV v = Val.str "4. 90+ Days" := by
  cases v with
  | num x =>
    simp only [numGtV, dpdBucketV, decide_eq_true_eq]
    constructor
    · intro h
      split_ifs with h1 h2 h3 h4 h5 <;> first | rfl | linarith
    · intro h
      split_ifs at h with h1 h2 h3 h4 h5 <;>
        first | linarith | (exact Val.noConfusion h) | (exact absurd (Val.str.inj h) (by decide))
  | null => simp [numGtV, dpdBucketV]
  | str s => simp [numGtV, dpdBucketV]
  | date n => simp [numGtV, dpdBucketV]
  | boolV b => simp [numGtV, dpdBucketV]

/-- C10: on every feature-engineered dataset, a row is selected by the
Reporter's severe-delinquency filter (days-past-due strictly greater
than 90) if and only if its bucket label is "4. 90+ Days"; in
particular a row with days-past-due exactly 90 is bucketed
"3. 61-90 Days" and excluded from the 90+ distribution view. -/
theorem dpd_filter_agrees_bucket (df : Df) (hwf : df.WF)
    (hreq : feRequired.all (· ∈ df.cols) = true) :
    ∀ o, featureEngineer df = Except.ok o → ∀ r' ∈ o.rows,
      (r' ∈ (dpdOver90 o).rows ↔ o.getCell r' "DPD_Bucket" = Val.str "4. 90+ Days") ∧
      (o.getCell r' "FDPDUE00" = Val.num 90 →
        o.getCell r' "DPD_Bucket" = Val.str "3. 61-90 Days" ∧
          r' ∉ (dpdOver90 o).rows) := by
  obtain ⟨hok, hwfo, hsub, hder, hrows⟩ := featureEngineer_cells df hwf hreq
  intro o ho
  have heq : o = feChain df := by
    have h2 := ho.symm.trans hok
    injection h2
  subst heq
  intro r' hr'
  obtain ⟨r, hm, h1, h2, h3, h4, h5, h6, h7, h8, h9, h10, h11, h12, h13, h14, h15⟩ :=
    hrows r' hr'
  have hself : (feChain df).getCell r' "DPD_Bucket" =
      dpdBucketV ((feChain df).getCell r' "FDPDUE00") := by
    rw [h10, h2]
  have hmemf : r' ∈ (dpdOver90 (feChain df)).rows ↔
      numGtV ((feChain df).getCell r' "FDPDUE00") 90 = true := by
    simp only [dpdOver90, List.mem_filter]
    exact ⟨fun h => h.2, fun h => ⟨hr', h⟩⟩
  refine ⟨?_, ?_⟩
  · rw [hmemf, hself]
    exact numGt90_iff_bucket _
  · intro h90
    constructor
    · rw [hself, h90]; decide
    · rw [hmemf, h90]; decide

/-- One-row merged dataset with days-past-due exactly 90, for the C10
witness. -/
def dpd90Row : Df :=
  ⟨feRequired, [[Val.null, Val.num 90, Val.null, Val.null, Val.null, Val.null, Val.null]]⟩

/-- C10 witness: on the concrete one-row dataset with days-past-due 90,
the feature-engineered row is bucketed "3. 61-90 Days" and is not in
the filtered 90+ view. -/
theorem dpd_filter_agrees_bucket_witness :
    (feChain dpd90Row).getCell ((feChain dpd90Row).rows.getD 0 []) "DPD_Bucket" =
      Val.str "3. 61-90 Days" ∧
    (feChain dpd90Row).rows.getD 0 [] ∉ (dpdOver90 (feChain dpd90Row)).rows :=
  dpd_filter_agrees_bucket dpd90Row (by decide) (by decide) (feChain dpd90Row) rfl
    ((feChain dpd90Row).rows.getD 0 []) (by decide) |>.2 (by decide)

/-- One column of the full clean-then-engineer pipeline on concrete
inputs, for stating concrete scenarios. -/
def pipelineCol (t p : Df) (c : String) : List Val :=
  match cleanData t p with
  | Except.ok m => feCol m c
  | Except.error _ => []

/-- Transaction dataset of the loan-age scenario: origination date text
"20200115", report date text "20240115", maturity date missing. -/
def scenarioTran : Df :=
  ⟨["FRPDATE", "FNPLFDTE", "FORDATE", "FMATDATE", "FCUSNO"],
   [[Val.str "20240115", Val.null, Val.str "20200115", Val.null, Val.num 1]]⟩

/-- Performance dataset of the loan-age scenario (no matching CIF). -/
def scenarioPerf : Df := ⟨["CIF", "STAGE_CIF", "FFLGBWFW", "FPRINCAM"], []⟩

/-- C8: loan age and remaining tenor are exact whole-day differences of
parsed dates, null-propagating; the concrete scenario "20200115" to
"20240115" yields exactly 1461 days through the full pipeline (one
leap day in range), and the null maturity date makes the remaining
tenor null rather than raising. -/
theorem loan_age_exact_days (df : Df) (hwf : df.WF)
    (hreq : feRequired.all (· ∈ df.cols) = true) :
    (∀ a b : Int, dateDiffDaysV (Val.date a) (Val.date b) = Val.num ((a - b : Int) : Rat)) ∧
    (∀ v : Val, dateDiffDaysV Val.null v = Val.null ∧ dateDiffDaysV v Val.null = Val.null) ∧
    (∀ r' ∈ (feChain df).rows,
      (feChain df).getCell r' "Loan_Age_Days" =
        dateDiffDaysV ((feChain df).getCell r' "FRPDATE")
          ((feChain df).getCell r' "FORDATE") ∧
      (feChain df).getCell r' "Remaining_Tenor_Days" =
        dateDiffDaysV ((feChain df).getCell r' "FMATDATE")
          ((feChain df).getCell r' "FRPDATE")) ∧
    pipelineCol scenarioTran scenarioPerf "Loan_Age_Days" = [Val.num 1461] ∧
    pipelineCol scenarioTran scenarioPerf "Remaining_Tenor_Days" = [Val.null] := by
  obtain ⟨-, -, -, -, hrows⟩ := featureEngineer_cells df hwf hreq
  refine ⟨fun a b => rfl, ?_, ?_, by decide, by decide⟩
  · intro v
    cases v <;> exact ⟨rfl, rfl⟩
  · intro r' hr'
    obtain ⟨r, hm, h1, h2, h3, h4, h5, h6, h7, h8, h9, h10, h11, h12, h13, h14, h15⟩ :=
      hrows r' hr'
    exact ⟨by rw [h12, h3, h4], by rw [h13, h5, h3]⟩

/-- C8 witness: the theorem applied to the empty merged dataset, read
off at the two day numbers of the scenario dates (2024-01-15 is day
19737, 2020-01-15 is day 18276; their difference is 1461). -/
theorem loan_age_exact_days_witness :
    dateDiffDaysV (Val.date 19737) (Val.date 18276) = Val.num 1461 ∧
    dateDiffDaysV Val.null (Val.date 18276) = Val.null :=
  ⟨((loan_age_exact_days emptyMerged emptyMerged_wf rfl).1 19737 18276).trans (by norm_num),
    ((loan_age_exact_days emptyMerged emptyMerged_wf rfl).2.1 (Val.date 18276)).1⟩

/-- C3 counterexample: on a transaction dataset lacking the `FRPDATE`
column, the plain `clean_data` indexes the column unconditionally and
raises a `KeyError`, while the retry-wrapped variant skips it and
succeeds — so "clean_data does not fail on a missing date column" is
false for `run_report.py`. -/
theorem clean_data_missing_date_counterexample :
    cleanData ⟨["FCUSNO"], [[Val.num 2]]⟩ ⟨["CIF"], []⟩ =
      Except.error "KeyError: date column" ∧
    cleanDataP ⟨["FCUSNO"], [[Val.num 2]]⟩ ⟨["CIF"], []⟩ =
      Except.ok ⟨["FCUSNO", "CIF", "FDPDUE00"], [[Val.num 2, Val.null, Val.num 0]]⟩ := by
  decide

/-- C3 (amended): the four date fields are parsed from 8-digit
year-month-day text, any value not matching the format coerces to null
and no parse error propagates; a field absent from the input is
skipped without error by the retry-wrapped variant's guarded loop,
while the plain variant's unguarded indexing raises a `KeyError`. -/
theorem date_parsing_coerce (t0 : Df) :
    (∀ s : String, parseYmd? s = none → parseDateCell (Val.str s) = Val.null) ∧
    (∀ (s : String) (n : Int), parseYmd? s = some n → parseDateCell (Val.str s) = Val.date n) ∧
    ((∀ c ∈ dateCols, c ∉ t0.cols) → parseDatesP t0 = t0) ∧
    ("FRPDATE" ∉ t0.cols →
      ∀ p : Df, cleanData t0 p = Except.error "KeyError: date column") := by
  refine ⟨?_, ?_, ?_, ?_⟩
  · intro s h
    simp [parseDateCell, h]
  · intro s n h
    simp [parseDateCell, h]
  · intro h
    have h1 : "FRPDATE" ∉ t0.cols := h _ (by decide)
    have h2 : "FNPLFDTE" ∉ t0.cols := h _ (by decide)
    have h3 : "FORDATE" ∉ t0.cols := h _ (by decide)
    have h4 : "FMATDATE" ∉ t0.cols := h _ (by decide)
    simp [parseDatesP, dateCols, h1, h2, h3, h4]
  · intro h p
    have hall : dateCols.all (· ∈ t0.cols) = false := by
      simp [dateCols, h]
    unfold cleanData cleanDataFull parseDates
    rw [hall]
    rfl

/-- C3 witness: a malformed date (month 13) coerces to null, a valid
date parses, a dataset without date columns passes the guarded loop
unchanged, and the plain variant errors on it. -/
theorem date_parsing_coerce_witness :
    parseDateCell (Val.str "20241301") = Val.null ∧
    parseDateCell (Val.str "20240115") = Val.date 19737 ∧
    parseDatesP ⟨["A"], []⟩ = ⟨["A"], []⟩ ∧
    cleanData ⟨["A"], []⟩ ⟨["CIF"], []⟩ = Except.error "KeyError: date column" :=
  ⟨(date_parsing_coerce ⟨["A"], []⟩).1 _ (by decide),
    (date_parsing_coerce ⟨["A"], []⟩).2.1 _ 19737 (by decide),
    (date_parsing_coerce ⟨["A"], []⟩).2.2.1 (by decide),
    (date_parsing_coerce ⟨["A"], []⟩).2.2.2 (by decide) ⟨["CIF"], []⟩⟩

/-- When every listed column is present, the guarded parsing loop never
takes its skip branch. -/
theorem foldl_parse_all_present : ∀ (cs : List String) (t : Df), (∀ c ∈ cs, c ∈ t.cols) →
    cs.foldl (fun d c => if c ∈ d.cols then pdStep c d else d) t =
    cs.foldl (fun d c => pdStep c d) t := by
  intro cs
  induction cs with
  | nil => intro t _; rfl
  | cons c cs ih =>
    intro t h
    have hc : c ∈ t.cols := h c (List.mem_cons_self _ _)
    simp only [List.foldl_cons, if_pos hc]
    refine ih _ ?_
    intro c' hc'
    unfold pdStep
    rw [setCol_cols_of_mem hc]
    exact h c' (List.mem_cons_of_mem _ hc')

/-- Parsing stages of the two variants agree whenever all four date
columns are present. -/
theorem parseDatesP_eq {t : Df} (h : dateCols.all (· ∈ t.cols) = true) :
    parseDates t = Except.ok (parseDatesP t) := by
  have hm : ∀ c ∈ dateCols, c ∈ t.cols := by
    simpa [dateCols, List.all_cons, Bool.and_eq_true, decide_eq_true_eq] using h
  unfold parseDates parseDatesP
  rw [if_pos h, foldl_parse_all_present dateCols t hm]
  rfl

/-- C6 counterexample: the two `clean_data` variants disagree on a
transaction dataset lacking the date columns — the plain one raises, the
retry-wrapped one succeeds. -/
theorem variants_differ_counterexample :
    cleanData ⟨["FCUSNO"], [[Val.num 3]]⟩ ⟨["CIF"], []⟩ ≠
      cleanDataP ⟨["FCUSNO"], [[Val.num 3]]⟩ ⟨["CIF"], []⟩ := by decide

/-- C6 (amended): the two `feature_engineer` variants compute the same
function on every input, and the two `clean_data` variants return the
same merged dataset (and leave the mutated transaction argument in the
same state) whenever the transaction dataset contains all four date
fields; they differ exactly when a date field is absent, where the
plain variant raises a `KeyError` and the guarded variant skips the
field. -/
theorem variants_equal_on_dated_input :
    (∀ df : Df, featureEngineerP df = featureEngineer df) ∧
    (∀ t p : Df, dateCols.all (· ∈ t.cols) = true →
      cleanDataFull t p = cleanDataFullP t p) ∧
    (∀ t p : Df, dateCols.all (· ∈ t.cols) = true →
      cleanData t p = cleanDataP t p) := by
  have hfull : ∀ t p : Df, dateCols.all (· ∈ t.cols) = true →
      cleanDataFull t p = cleanDataFullP t p := by
    intro t p h
    unfold cleanDataFull cleanDataFullP
    rw [parseDatesP_eq h]
    rfl
  refine ⟨fun df => rfl, hfull, ?_⟩
  intro t p h
  unfold cleanData cleanDataP
  rw [hfull t p h]

/-- C6 witness: the variants agree on the concrete scenario input,
which carries all four date columns. -/
theorem variants_equal_on_dated_input_witness :
    featureEngineerP emptyMerged = featureEngineer emptyMerged ∧
    cleanData scenarioTran scenarioPerf = cleanDataP scenarioTran scenarioPerf :=
  ⟨variants_equal_on_dated_input.1 emptyMerged,
    variants_equal_on_dated_input.2.2 scenarioTran scenarioPerf (by decide)⟩

/-! ## Toolkit: row counting through the merge and clean tail -/

theorem flatMap_length_one {α β : Type} (l : List α) (g : α → List β)
    (h : ∀ a ∈ l, (g a).length = 1) : (l.flatMap g).length = l.length := by
  induction l with
  | nil => rfl
  | cons a as ih =>
    rw [List.flatMap_cons, List.length_append, h a (List.mem_cons_self _ _),
      ih (fun x hx => h x (List.mem_cons_of_mem _ hx))]
    simp [Nat.add_comm]

theorem setCol_length (df : Df) (c : String) (f : List Val → Val) :
    (df.setCol c f).rows.length = df.rows.length := by
  rw [setCol_rows, List.length_map]

theorem dropCol_length (df : Df) (c : String) :
    (df.dropCol c).rows.length = df.rows.length := by
  unfold Df.dropCol
  rcases colIdx? df.cols c with _ | i <;> simp

/-- With at most one match per key on the reference side, the left
merge emits exactly one row per driving row. -/
theorem mergeLeft_length (t p : Df) (lk rk : String)
    (hu : ∀ v : Val, (p.rows.filter (fun s => keyMatch v (p.getCell s rk))).length ≤ 1) :
    (mergeLeft t p lk rk).rows.length = t.rows.length := by
  unfold mergeLeft
  refine flatMap_length_one _ _ ?_
  intro r hr
  rcases he : (p.rows.filter
      (fun s => keyMatch (t.getCell r lk) (p.getCell s rk))).isEmpty with _ | _
  · have hne : p.rows.filter
        (fun s => keyMatch (t.getCell r lk) (p.getCell s rk)) ≠ [] := by
      intro hnil
      rw [hnil] at he
      exact absurd he (by decide)
    have h1 : 1 ≤ (p.rows.filter
        (fun s => keyMatch (t.getCell r lk) (p.getCell s rk))).length :=
      Nat.one_le_iff_ne_zero.mpr (fun h0 => hne (List.eq_nil_of_length_eq_zero h0))
    simp only [he, Bool.false_eq_true, if_false, List.length_map]
    exact le_antisymm (hu _) h1
  · simp [he]

/-- C4: with unique reference keys the left merge on FCUSNO = CIF is
row-count preserving; every unmatched driving row is retained padded
with nulls; and through the whole `clean_data` the merged dataset has
exactly one row per deduplicated transaction row. -/
theorem merge_preserves_rows (t p : Df)
    (hu : ∀ v : Val, (p.rows.filter (fun s => keyMatch v (p.getCell s "CIF"))).length ≤ 1) :
    (mergeLeft t p "FCUSNO" "CIF").rows.length = t.rows.length ∧
    (∀ r ∈ t.rows,
      (∀ s ∈ p.rows, keyMatch (t.getCell r "FCUSNO") (p.getCell s "CIF") = false) →
      r ++ List.replicate p.cols.length Val.null ∈ (mergeLeft t p "FCUSNO" "CIF").rows) ∧
    ∀ t2 m, cleanDataFull t p = Except.ok (t2, m) → m.rows.length = t2.rows.length := by
  refine ⟨mergeLeft_length t p "FCUSNO" "CIF" hu, ?_, ?_⟩
  · intro r hr hnone
    unfold mergeLeft
    simp only [List.mem_flatMap]
    refine ⟨r, hr, ?_⟩
    have he : p.rows.filter (fun s => keyMatch (t.getCell r "FCUSNO") (p.getCell s "CIF")) = [] :=
      List.filter_eq_nil_iff.mpr (fun s hs => by rw [hnone s hs]; decide)
    simp [he]
  · intro t2 m hcd
    unfold cleanDataFull at hcd
    rcases hp : parseDates t with _ | t1
    · rw [hp] at hcd
      exact absurd hcd (by simp [Except.bind])
    · rw [hp] at hcd
      simp only [Except.bind] at hcd
      unfold cleanCommon at hcd
      split_ifs at hcd with hkeys
      · simp only [Except.map] at hcd
        injection hcd with hcd
        have h1 : t2 = t1.dedupRows := congrArg Prod.fst hcd.symm
        have h2 : m = (let m0 := mergeLeft t1.dedupRows p "FCUSNO" "CIF"
            let m1 := if "FRPDATE_x" ∈ m0.cols then m0.renameCol "FRPDATE_x" "FRPDATE" else m0
            let m2 := if "FRPDATE_y" ∈ m1.cols then m1.dropCol "FRPDATE_y" else m1
            if "FDPDUE00" ∈ m2.cols then
              m2.setCol "FDPDUE00" (fun r => fdpdueCell (m2.getCell r "FDPDUE00"))
            else m2.setCol "FDPDUE00" (fun _ => Val.num 0)) := congrArg Prod.snd hcd.symm
        subst h1
        rw [h2]
        simp only []
        split_ifs <;>
          simp [setCol_length, dropCol_length, Df.renameCol,
            mergeLeft_length _ p "FCUSNO" "CIF" hu]
      · exact absurd hcd (by simp [Except.map])

/-- C4 witness: a one-row transaction dataset against a one-key
performance dataset keeps exactly one row, an unmatched row is padded
with nulls, and a null-keyed transaction row against a single null-CIF
performance row still yields exactly one output row — the joined one,
since pandas matches NaN join keys to NaN join keys. -/
theorem merge_preserves_rows_witness :
    (mergeLeft ⟨["FCUSNO"], [[Val.num 5]]⟩ ⟨["CIF", "STAGE_CIF"], [[Val.num 9, Val.num 1]]⟩
      "FCUSNO" "CIF").rows.length = 1 ∧
    [Val.num 5, Val.null, Val.null] ∈
      (mergeLeft ⟨["FCUSNO"], [[Val.num 5]]⟩ ⟨["CIF", "STAGE_CIF"], [[Val.num 9, Val.num 1]]⟩
        "FCUSNO" "CIF").rows ∧
    (mergeLeft ⟨["FCUSNO"], [[Val.null]]⟩ ⟨["CIF", "STAGE_CIF"], [[Val.null, Val.num 7]]⟩
      "FCUSNO" "CIF").rows.length = 1 ∧
    [Val.null, Val.null, Val.num 7] ∈
      (mergeLeft ⟨["FCUSNO"], [[Val.null]]⟩ ⟨["CIF", "STAGE_CIF"], [[Val.null, Val.num 7]]⟩
        "FCUSNO" "CIF").rows := by
  have hu : ∀ v : Val, ((⟨["CIF", "STAGE_CIF"], [[Val.num 9, Val.num 1]]⟩ : Df).rows.filter
      (fun s => keyMatch v ((⟨["CIF", "STAGE_CIF"], [[Val.num 9, Val.num 1]]⟩ : Df).getCell
        s "CIF"))).length ≤ 1 :=
    fun v => le_trans (List.length_filter_le _ _) (by decide)
  have hun : ∀ v : Val, ((⟨["CIF", "STAGE_CIF"], [[Val.null, Val.num 7]]⟩ : Df).rows.filter
      (fun s => keyMatch v ((⟨["CIF", "STAGE_CIF"], [[Val.null, Val.num 7]]⟩ : Df).getCell
        s "CIF"))).length ≤ 1 :=
    fun v => le_trans (List.length_filter_le _ _) (by decide)
  have h := merge_preserves_rows ⟨["FCUSNO"], [[Val.num 5]]⟩
    ⟨["CIF", "STAGE_CIF"], [[Val.num 9, Val.num 1]]⟩ hu
  have hn := merge_preserves_rows ⟨["FCUSNO"], [[Val.null]]⟩
    ⟨["CIF", "STAGE_CIF"], [[Val.null, Val.num 7]]⟩ hun
  exact ⟨h.1, h.2.1 [Val.num 5] (by decide) (by decide), hn.1, by decide⟩

theorem pairwise_conj {α : Type} {R S : α → α → Prop} :
    ∀ {l : List α}, l.Pairwise R → l.Pairwise S → l.Pairwise (fun a b => R a b ∧ S a b) := by
  intro l
  induction l with
  | nil => intro _ _; exact List.Pairwise.nil
  | cons a as ih =>
    intro hR hS
    rcases List.pairwise_cons.mp hR with ⟨hRa, hRs⟩
    rcases List.pairwise_cons.mp hS with ⟨hSa, hSs⟩
    exact List.pairwise_cons.mpr ⟨fun b hb => ⟨hRa b hb, hSa b hb⟩, ih hRs hSs⟩

/-- C9: the per-stage summary aggregates the principal amount by stage
label with sum, mean and count semantics of pandas `agg` (sum and
count over the non-null values of the group, mean undefined on an
empty group), each stage label present in the data appears exactly
once as a group key, and the group keys come out strictly sorted in
Python string order — which on the four ordinal-prefixed labels is
exactly the ordinal order Unknown, Performing, Under-performing,
NPL. -/
theorem report_by_stage_spec (df : Df) :
    ((reportByStage df).map Prod.fst).Pairwise (fun a b => strLe a b = true ∧ a ≠ b) ∧
    (∀ k : String, k ∈ (reportByStage df).map Prod.fst ↔
      Val.str k ∈ df.rows.map (fun r => df.getCell r "Stage_Name")) ∧
    (∀ e ∈ reportByStage df,
      e.2.1 = (groupVals df e.1).sum ∧
      e.2.2.2 = (groupVals df e.1).length ∧
      e.2.2.1 = (if (groupVals df e.1).length = 0 then none
        else some ((groupVals df e.1).sum / ((groupVals df e.1).length : Rat)))) ∧
    (strLe "0. Unknown" "1. Performing" = true ∧
      strLe "1. Performing" "2. Under-performing" = true ∧
      strLe "2. Under-performing" "3. NPL" = true ∧
      "0. Unknown" ≠ "1. Performing" ∧ "1. Performing" ≠ "2. Under-performing" ∧
      "2. Under-performing" ≠ "3. NPL") := by
  have hkeys : (reportByStage df).map Prod.fst =
      List.insertionSort strLeR (dedupAux [] (df.rows.filterMap (fun r =>
        match df.getCell r "Stage_Name" with
        | Val.str s => some s
        | _ => none))) := by
    unfold reportByStage
    rw [List.map_map]
    exact List.map_id _
  refine ⟨?_, ?_, ?_, by decide⟩
  · rw [hkeys]
    have hsorted := List.sorted_insertionSort strLeR (dedupAux [] (df.rows.filterMap (fun r =>
      match df.getCell r "Stage_Name" with
      | Val.str s => some s
      | _ => none)))
    have hnodup : (List.insertionSort strLeR (dedupAux [] (df.rows.filterMap (fun r =>
        match df.getCell r "Stage_Name" with
        | Val.str s => some s
        | _ => none)))).Nodup :=
      (List.perm_insertionSort strLeR _).nodup_iff.mpr (dedupAux_nodup _ _)
    exact pairwise_conj hsorted hnodup
  · intro k
    rw [hkeys, (List.perm_insertionSort strLeR _).mem_iff, mem_dedupAux]
    simp only [List.not_mem_nil, not_false_iff, and_true, List.mem_filterMap, List.mem_map]
    constructor
    · rintro ⟨r, hr, hk⟩
      refine ⟨r, hr, ?_⟩
      rcases hv : df.getCell r "Stage_Name" with _ | q | s | n | b <;> rw [hv] at hk <;>
        simp at hk
      rw [hk]
    · rintro ⟨r, hr, hk⟩
      exact ⟨r, hr, by rw [hk]⟩
  · intro e he
    unfold reportByStage at he
    rcases List.mem_map.mp he with ⟨k, hk, rfl⟩
    exact ⟨rfl, rfl, rfl⟩

/-- C9 witness: the theorem applied to a concrete dataset, reading a
group key back from the data. -/
theorem report_by_stage_spec_witness :
    Val.str "3. NPL" ∈ (⟨["Stage_Name", "FPRINCAM"],
      [[Val.str "3. NPL", Val.num 10], [Val.str "1. Performing", Val.num 4]]⟩ : Df).rows.map
        (fun r => (⟨["Stage_Name", "FPRINCAM"],
          [[Val.str "3. NPL", Val.num 10], [Val.str "1. Performing", Val.num 4]]⟩ : Df).getCell
            r "Stage_Name") :=
  ((report_by_stage_spec ⟨["Stage_Name", "FPRINCAM"],
      [[Val.str "3. NPL", Val.num 10], [Val.str "1. Performing", Val.num 4]]⟩).2.1
    "3. NPL").mp (by decide)

/-! ## Toolkit: idempotence of the cell coercions and of `clean_data` -/

theorem toNumericCell_idem (v : Val) : toNumericCell (toNumericCell v) = toNumericCell v := by
  cases v with
  | str s => rcases h : parseRat? s with _ | q <;> simp [toNumericCell, h]
  | _ => rfl

theorem parseDateCell_idem (v : Val) : parseDateCell (parseDateCell v) = parseDateCell v := by
  cases v with
  | str s => rcases h : parseYmd? s with _ | n <;> simp [parseDateCell, h]
  | num q =>
    simp only [parseDateCell]
    split_ifs with h
    · rcases hp : parseYmd? (Nat.repr q.num.toNat) with _ | n <;> simp [parseDateCell, hp]
    · rfl
  | _ => rfl

/-- Characterization of the plain date-parsing block: on a well-formed
input with the four columns present it succeeds, keeps the column list,
and rewrites exactly the four date cells through `parseDateCell`. -/
theorem parseDates_cells (t : Df) (hwf : t.WF)
    (h : dateCols.all (· ∈ t.cols) = true) :
    ∃ t1, parseDates t = Except.ok t1 ∧ t1.WF ∧ t1.cols = t.cols ∧
      ∀ r' ∈ t1.rows, ∃ r ∈ t.rows,
        ∀ c ∈ dateCols, t1.getCell r' c = parseDateCell (t.getCell r c) := by
  have hm : ∀ c ∈ dateCols, c ∈ t.cols := by
    simpa [dateCols, List.all_cons, Bool.and_eq_true, decide_eq_true_eq] using h
  have h1 : "FRPDATE" ∈ t.cols := hm _ (by decide)
  have h2 : "FNPLFDTE" ∈ t.cols := hm _ (by decide)
  have h3 : "FORDATE" ∈ t.cols := hm _ (by decide)
  have h4 : "FMATDATE" ∈ t.cols := hm _ (by decide)
  set T1 := t.setCol "FRPDATE" (fun r => parseDateCell (t.getCell r "FRPDATE")) with hT1
  set T2 := T1.setCol "FNPLFDTE" (fun r => parseDateCell (T1.getCell r "FNPLFDTE")) with hT2
  set T3 := T2.setCol "FORDATE" (fun r => parseDateCell (T2.getCell r "FORDATE")) with hT3
  set T4 := T3.setCol "FMATDATE" (fun r => parseDateCell (T3.getCell r "FMATDATE")) with hT4
  have wf1 : T1.WF := setCol_wf _ _ hwf
  have wf2 : T2.WF := setCol_wf _ _ wf1
  have wf3 : T3.WF := setCol_wf _ _ wf2
  have wf4 : T4.WF := setCol_wf _ _ wf3
  have hc1 : T1.cols = t.cols := setCol_cols_of_mem h1 _
  have hc2 : T2.cols = T1.cols := setCol_cols_of_mem (hc1 ▸ h2) _
  have hc3 : T3.cols = T2.cols := setCol_cols_of_mem (hc2 ▸ hc1 ▸ h3) _
  have hc4 : T4.cols = T3.cols := setCol_cols_of_mem (hc3 ▸ hc2 ▸ hc1 ▸ h4) _
  refine ⟨T4, ?_, wf4, by rw [hc4, hc3, hc2, hc1], ?_⟩
  · unfold parseDates
    rw [if_pos h]
    rfl
  · intro r' hr'
    obtain ⟨r3, hm3, hpr4, hwr4⟩ := step_elim wf3 r' hr'
    obtain ⟨r2, hm2, hpr3, hwr3⟩ := step_elim wf2 r3 hm3
    obtain ⟨r1, hm1, hpr2, hwr2⟩ := step_elim wf1 r2 hm2
    obtain ⟨r0, hm0, hpr1, hwr1⟩ := step_elim hwf r1 hm1
    have hp4 : ∀ c, c ≠ "FMATDATE" → T4.getCell r' c = T3.getCell r3 c := hpr4
    have hp3 : ∀ c, c ≠ "FORDATE" → T3.getCell r3 c = T2.getCell r2 c := hpr3
    have hp2 : ∀ c, c ≠ "FNPLFDTE" → T2.getCell r2 c = T1.getCell r1 c := hpr2
    have hp1 : ∀ c, c ≠ "FRPDATE" → T1.getCell r1 c = t.getCell r0 c := hpr1
    have hw1 : T1.getCell r1 "FRPDATE" = parseDateCell (t.getCell r0 "FRPDATE") := hwr1
    have hw2 : T2.getCell r2 "FNPLFDTE" = parseDateCell (T1.getCell r1 "FNPLFDTE") := hwr2
    have hw3 : T3.getCell r3 "FORDATE" = parseDateCell (T2.getCell r2 "FORDATE") := hwr3
    have hw4 : T4.getCell r' "FMATDATE" = parseDateCell (T3.getCell r3 "FMATDATE") := hwr4
    refine ⟨r0, hm0, ?_⟩
    intro c hc
    fin_cases hc
    · rw [hp4 _ (by decide), hp3 _ (by decide), hp2 _ (by decide), hw1]
    · rw [hp4 _ (by decide), hp3 _ (by decide), hw2, hp1 _ (by decide)]
    · rw [hp4 _ (by decide), hw3, hp2 _ (by decide), hp1 _ (by decide)]
    · rw [hw4, hp3 _ (by decide), hp2 _ (by decide), hp1 _ (by decide)]

/-- Re-running the plain `clean_data` on the post-call state of its
(mutated in place) transaction argument reproduces the same state and
the same merged dataset. -/
theorem clean_data_idem (t p t2 m : Df) (hwf : t.WF)
    (hcd : cleanDataFull t p = Except.ok (t2, m)) :
    cleanDataFull t2 p = Except.ok (t2, m) := by
  unfold cleanDataFull at hcd
  rcases hp : parseDates t with e | t1
  · rw [hp] at hcd
    exact absurd hcd (by simp [Except.bind])
  · rw [hp] at hcd
    simp only [Except.bind] at hcd
    rcases hcc : cleanCommon t1.dedupRows p with e | m0
    · rw [hcc] at hcd
      exact absurd hcd (by simp [Except.map])
    · rw [hcc] at hcd
      simp only [Except.map] at hcd
      injection hcd with hcd
      have ht2 : t2 = t1.dedupRows := congrArg Prod.fst hcd.symm
      have hmm : m = m0 := congrArg Prod.snd hcd.symm
      subst ht2
      subst hmm
      have hall : dateCols.all (· ∈ t.cols) = true := by
        by_contra hfalse
        have he : parseDates t = Except.error "KeyError: date column" := by
          unfold parseDates
          rw [if_neg hfalse]
        rw [he] at hp
        cases hp
      obtain ⟨t1', hp', hwf1, hcols1, hcells⟩ := parseDates_cells t hwf hall
      have ht1 : t1' = t1 := by
        rw [hp'] at hp
        injection hp
      subst ht1
      have hwf2 : t1'.dedupRows.WF := dedupRows_wf hwf1
      have hcols2 : t1'.dedupRows.cols = t.cols := hcols1
      have hstable : ∀ c ∈ dateCols, ∀ r ∈ t1'.dedupRows.rows,
          parseDateCell (t1'.dedupRows.getCell r c) = t1'.dedupRows.getCell r c := by
        intro c hc r hr
        have hr1 : r ∈ t1'.rows := (mem_dedupAux.mp hr).1
        obtain ⟨r0, hr0, heq⟩ := hcells r hr1
        have hg : t1'.dedupRows.getCell r c = t1'.getCell r c := rfl
        rw [hg, heq c hc, parseDateCell_idem]
      have hmem : ∀ c ∈ dateCols, c ∈ t1'.dedupRows.cols := by
        intro c hc
        rw [hcols2]
        have hx : ∀ c ∈ dateCols, c ∈ t.cols := by
          simpa [dateCols, List.all_cons, Bool.and_eq_true, decide_eq_true_eq] using hall
        exact hx c hc
      have hall2 : dateCols.all (· ∈ t1'.dedupRows.cols) = true := by
        simp only [List.all_eq_true, decide_eq_true_eq]
        exact hmem
      have hps : parseDates t1'.dedupRows = Except.ok t1'.dedupRows := by
        unfold parseDates
        rw [if_pos hall2]
        have e1 : pdStep "FRPDATE" t1'.dedupRows = t1'.dedupRows :=
          setCol_id (hmem _ (by decide)) hwf2 (fun r hr => hstable "FRPDATE" (by decide) r hr)
        have e2 : pdStep "FNPLFDTE" t1'.dedupRows = t1'.dedupRows :=
          setCol_id (hmem _ (by decide)) hwf2 (fun r hr => hstable "FNPLFDTE" (by decide) r hr)
        have e3 : pdStep "FORDATE" t1'.dedupRows = t1'.dedupRows :=
          setCol_id (hmem _ (by decide)) hwf2 (fun r hr => hstable "FORDATE" (by decide) r hr)
        have e4 : pdStep "FMATDATE" t1'.dedupRows = t1'.dedupRows :=
          setCol_id (hmem _ (by decide)) hwf2 (fun r hr => hstable "FMATDATE" (by decide) r hr)
        rw [e1, e2, e3, e4]
      unfold cleanDataFull
      rw [hps]
      simp only [Except.bind]
      rw [dedupRows_idem t1', hcc]
      simp [Except.map]

/-- Re-running `feature_engineer` on its own (mutated, returned) output
reproduces that output: every derived column is recomputed from
unchanged base cells to the same values. -/
theorem feature_engineer_idem (df o : Df) (hwf : df.WF)
    (hfe : featureEngineer df = Except.ok o) : featureEngineer o = Except.ok o := by
  have hreq : feRequired.all (· ∈ df.cols) = true := by
    by_contra h
    unfold featureEngineer at hfe
    rw [if_neg h] at hfe
    cases hfe
  obtain ⟨hok, hwfo, hsub, hder, hrows⟩ := featureEngineer_cells df hwf hreq
  have ho : o = feChain df := by
    have h2 := hfe.symm.trans hok
    injection h2
  subst ho
  have hreq2 : feRequired.all (· ∈ (feChain df).cols) = true := by
    simp only [List.all_eq_true, decide_eq_true_eq] at hreq ⊢
    exact fun c hc => hsub (hreq c hc)
  simp only [feDerived, List.all_cons, List.all_nil, Bool.and_eq_true, decide_eq_true_eq,
    Bool.and_true] at hder
  obtain ⟨hn1, hn2, hn3, hn4, hn5, hn6, hn7, hn8, hn9, hn10⟩ := hder
  have e1 : feStage (feChain df) = feChain df := by
    refine setCol_id hn1 hwfo ?_
    intro r hr
    obtain ⟨r0, hr0, h1, h2, h3, h4, h5, h6, h7, h8, h9, h10, h11, h12, h13, h14, h15⟩ :=
      hrows r hr
    rw [h1, h8]
  have e2 : feOverdue (feChain df) = feChain df := by
    refine setCol_id hn2 hwfo ?_
    intro r hr
    obtain ⟨r0, hr0, h1, h2, h3, h4, h5, h6, h7, h8, h9, h10, h11, h12, h13, h14, h15⟩ :=
      hrows r hr
    rw [h2, h9]
  have e3 : feBucket (feChain df) = feChain df := by
    refine setCol_id hn3 hwfo ?_
    intro r hr
    obtain ⟨r0, hr0, h1, h2, h3, h4, h5, h6, h7, h8, h9, h10, h11, h12, h13, h14, h15⟩ :=
      hrows r hr
    rw [h2, h10]
  have e4 : feFflg (feChain df) = feChain df := by
    refine setCol_id hn4 hwfo ?_
    intro r hr
    obtain ⟨r0, hr0, h1, h2, h3, h4, h5, h6, h7, h8, h9, h10, h11, h12, h13, h14, h15⟩ :=
      hrows r hr
    rw [h6, toNumericCell_idem]
  have e5 : fePrinc (feChain df) = feChain df := by
    refine setCol_id hn5 hwfo ?_
    intro r hr
    obtain ⟨r0, hr0, h1, h2, h3, h4, h5, h6, h7, h8, h9, h10, h11, h12, h13, h14, h15⟩ :=
      hrows r hr
    rw [h7, toNumericCell_idem]
  have e6 : feDebt (feChain df) = feChain df := by
    refine setCol_id hn6 hwfo ?_
    intro r hr
    obtain ⟨r0, hr0, h1, h2, h3, h4, h5, h6, h7, h8, h9, h10, h11, h12, h13, h14, h15⟩ :=
      hrows r hr
    rw [h7, h6, h11]
  have e7 : feAge (feChain df) = feChain df := by
    refine setCol_id hn7 hwfo ?_
    intro r hr
    obtain ⟨r0, hr0, h1, h2, h3, h4, h5, h6, h7, h8, h9, h10, h11, h12, h13, h14, h15⟩ :=
      hrows r hr
    rw [h3, h4, h12]
  have e8 : feTenor (feChain df) = feChain df := by
    refine setCol_id hn8 hwfo ?_
    intro r hr
    obtain ⟨r0, hr0, h1, h2, h3, h4, h5, h6, h7, h8, h9, h10, h11, h12, h13, h14, h15⟩ :=
      hrows r hr
    rw [h5, h3, h13]
  have e9 : feYear (feChain df) = feChain df := by
    refine setCol_id hn9 hwfo ?_
    intro r hr
    obtain ⟨r0, hr0, h1, h2, h3, h4, h5, h6, h7, h8, h9, h10, h11, h12, h13, h14, h15⟩ :=
      hrows r hr
    rw [h4, h14]
  have e10 : feQuarter (feChain df) = feChain df := by
    refine setCol_id hn10 hwfo ?_
    intro r hr
    obtain ⟨r0, hr0, h1, h2, h3, h4, h5, h6, h7, h8, h9, h10, h11, h12, h13, h14, h15⟩ :=
      hrows r hr
    rw [h4, h15]
  have hcollapse : feQuarter (feYear (feTenor (feAge (feDebt (fePrinc (feFflg (feBucket
      (feOverdue (feStage (feChain df)))))))))) = feChain df := by
    rw [e1, e2, e3, e4, e5, e6, e7, e8, e9, e10]
  unfold featureEngineer
  rw [if_pos hreq2]
  exact congrArg Except.ok hcollapse

/-- Post-call state of the transaction dataset argument of the plain
`clean_data` (the Python function mutates `df_tran` in place). -/
def tranStateAfter (t p : Df) : Option Df :=
  match cleanDataFull t p with
  | Except.ok (t2, _) => some t2
  | Except.error _ => none

/-- C5 counterexample: `clean_data` does NOT leave its input arguments
unchanged — on the scenario transaction dataset (which holds date
text), the post-call state of `df_tran` differs from the dataset that
was passed in, because the dates were parsed in place
(`df_tran['FRPDATE'] = pd.to_datetime(...)`, `drop_duplicates(inplace=True)`). -/
theorem clean_data_mutates_counterexample :
    tranStateAfter scenarioTran scenarioPerf ≠ some scenarioTran := by decide

/-- C5 (amended): the two core stages are deterministic and idempotent
— re-running either stage on the state it left behind reproduces the
same result — but they are not side-effect-free on their arguments:
`clean_data` parses dates into and deduplicates its transaction
argument in place, and `feature_engineer` mutates and returns the
merged dataset itself. -/
theorem stages_idempotent :
    (∀ t p t2 m : Df, t.WF → cleanDataFull t p = Except.ok (t2, m) →
      cleanDataFull t2 p = Except.ok (t2, m)) ∧
    (∀ df o : Df, df.WF → featureEngineer df = Except.ok o →
      featureEngineer o = Except.ok o) :=
  ⟨fun t p t2 m hwf h => clean_data_idem t p t2 m hwf h,
    fun df o hwf h => feature_engineer_idem df o hwf h⟩

/-- C5 witness: on the concrete scenario input, re-running `clean_data`
on its post-call transaction state reproduces the same pair, and
re-running `feature_engineer` on its own output reproduces it. -/
theorem stages_idempotent_witness :
    cleanDataFull ((tranStateAfter scenarioTran scenarioPerf).getD ⟨[], []⟩) scenarioPerf =
      Except.ok ((tranStateAfter scenarioTran scenarioPerf).getD ⟨[], []⟩,
        (match cleanDataFull scenarioTran scenarioPerf with
          | Except.ok (_, m) => m
          | Except.error _ => ⟨[], []⟩)) ∧
    featureEngineer (feChain emptyMerged) = Except.ok (feChain emptyMerged) :=
  ⟨stages_idempotent.1 scenarioTran scenarioPerf _ _ (by decide) (by decide),
    stages_idempotent.2 emptyMerged (feChain emptyMerged) emptyMerged_wf (by decide)⟩
